import Mathlib

/-!
Shallow embedding of `statsdbinterface/database/extmodels.py` (statsdb-interface).

Tables are lists of records in storage order.  SQL queries without an
`ORDER BY` return rows in storage order; well-formedness (`DB.WF`) records
that tables are stored in ascending game-id order, matching the repository's
monotonically increasing game identifiers assigned at game completion.
-/

/-- A row of the `Game` table.  The per-game ruleset encoding consumed by the
external SQL predicates `re_mode` / `re_mut` / `re_normal_weapons` (their
implementation is outside this module) is modelled from the spec as the
game's mode name, its mutator-name list and a normal-weapons flag. -/
structure Game where
  id : Nat
  map : String
  time : Nat
  timeplayed : Int
  mode : String
  mutators : List String
  normalweapons : Bool
  deriving DecidableEq, Repr

/-- A row of the `GamePlayer` table (one per player per game). -/
structure GamePlayer where
  game_id : Nat
  handle : String
  name : String
  frags : Int
  deaths : Int
  score : Int
  timealive : Int
  timeactive : Int
  deriving DecidableEq, Repr

/-- A row of the `GameServer` table (one per server per game). -/
structure GameServer where
  game_id : Nat
  handle : String
  deriving DecidableEq, Repr

/-- A row of the `GameWeapon` table (one per player-weapon-game triple). -/
structure GameWeapon where
  game_id : Nat
  weapon : String
  playerhandle : String
  timewielded : Int
  timeloadout : Int
  damage1 : Int
  frags1 : Int
  hits1 : Int
  flakhits1 : Int
  shots1 : Int
  flakshots1 : Int
  damage2 : Int
  frags2 : Int
  hits2 : Int
  flakhits2 : Int
  shots2 : Int
  flakshots2 : Int
  deriving DecidableEq, Repr

/-- The database state, plus the one configuration value the module reads
(`current_app.config['API_HIGHSCORE_RESULTS']`). -/
structure DB where
  games : List Game
  gameplayers : List GamePlayer
  gameservers : List GameServer
  gameweapons : List GameWeapon
  api_highscore_results : Nat
  deriving DecidableEq, Repr

/-- Modelled from the spec: the external redeclipse ruleset catalog
(`redeclipse.versions.default`), a read-only lookup of mode names, base
mutator names, per-mode ("game specific") mutator names, weapon names and
the set of weapons that are not actively wielded. -/
structure Ruleset where
  modes : List String
  basemuts : List String
  gspmuts : String → List String
  weaponlist : List String
  notwielded : List String

/-- `Game.query.filter(Game.id == i).first()`-style lookup by game id. -/
def DB.gameById (db : DB) (i : Nat) : Option Game :=
  db.games.find? (fun g => g.id == i)

/-- Modelled from the spec: the external SQL predicate `re_mode(game_id, m)`
("game is mode m"), evaluated over the persisted per-game encoding. -/
def DB.re_mode (db : DB) (i : Nat) (m : String) : Bool :=
  (db.gameById i).any (fun g => g.mode == m)

/-- Modelled from the spec: the external SQL predicate `re_mut(game_id, m)`
("game has mutator m"). -/
def DB.re_mut (db : DB) (i : Nat) (m : String) : Bool :=
  (db.gameById i).any (fun g => m ∈ g.mutators)

/-- Modelled from the spec: the external SQL predicate
`re_normal_weapons(game_id)` (the fixed filter excluding games with
non-standard weapon rule sets), represented by the game's stored flag. -/
def DB.re_normal_weapons (db : DB) (i : Nat) : Bool :=
  (db.gameById i).any (fun g => g.normalweapons)

/-- SQL `sum()` over a column: `NULL` (here `none`) on an empty row set,
otherwise the sum. -/
def sqlSum (l : List Int) : Option Int :=
  if l.isEmpty then none else some l.sum

/-- Stable insertion of `x` into `l`: `x` goes before the first element `y`
with `le x y`. -/
def insertLe (le : α → α → Bool) (x : α) : List α → List α
  | [] => [x]
  | y :: ys => if le x y then x :: y :: ys else y :: insertLe le x ys

/-- Stable insertion sort (Python's `sorted` is a stable sort; stability is
what makes its two-pass sort idiom give a secondary key). -/
def sortLe (le : α → α → Bool) : List α → List α
  | [] => []
  | x :: xs => insertLe le x (sortLe le xs)

/-- Outcome of a failed resolution: `NotFound` from `get_or_404`, or the
`IndexError` a constructor raises when it indexes an empty game-id list. -/
inductive ResolveErr where
  | notFound
  | indexErr
  deriving DecidableEq, Repr

/-- The `Player` view: handle, game-id list and the eagerly loaded first and
latest `GamePlayer` rows (`.first()` yields `none` on an empty row set). -/
structure PlayerView where
  handle : String
  game_ids : List Nat
  latest : Option GamePlayer
  first : Option GamePlayer
  deriving DecidableEq, Repr

/-- The game id SQLite reports for a handle's `GROUP BY handle` group when
ordering by the bare `game_id` column: with the table stored in ascending
game-id order the group's representative row is its last, i.e. maximal,
game id. -/
def Player.lastRef (db : DB) (h : String) : Nat :=
  ((db.gameplayers.filter (fun r => r.handle == h)).map (fun r => r.game_id)).foldl max 0

/-- `Player.handle_list`: distinct non-empty handles, ordered by the group's
bare `game_id` descending (see `Player.lastRef`). -/
def Player.handle_list (db : DB) : List String :=
  sortLe (fun a b => decide (Player.lastRef db b ≤ Player.lastRef db a))
    ((db.gameplayers.map (fun r => r.handle)).filter (fun h => h != "")).dedup

/-- `Player.count`: number of distinct non-empty handles. -/
def Player.count (db : DB) : Nat :=
  ((db.gameplayers.map (fun r => r.handle)).filter (fun h => h != "")).dedup.length

/-- The game-id list built by `Player.__init__`: the player's rows in table
order, kept only when the game still exists. -/
def Player.computeGameIds (db : DB) (h : String) : List Nat :=
  let all_games := db.games.map (fun g => g.id)
  ((db.gameplayers.filter (fun r => r.handle == h)).map (fun r => r.game_id)).filter
    (fun i => decide (i ∈ all_games))

/-- `Player.__init__`; `none` models the `IndexError` raised by
`game_ids[-1]` when the game-id list is empty. -/
def Player.mk? (db : DB) (h : String) : Option PlayerView :=
  let gids := Player.computeGameIds db h
  if gids.isEmpty then none
  else some {
    handle := h
    game_ids := gids
    latest := (db.gameplayers.filter
      (fun r => r.game_id == gids.getLastD 0 && r.handle == h)).head?
    first := (db.gameplayers.filter
      (fun r => r.game_id == gids.headD 0 && r.handle == h)).head? }

/-- `Player.get_or_404`. -/
def Player.get_or_404 (db : DB) (h : String) : Except ResolveErr PlayerView :=
  if h ∈ Player.handle_list db then
    match Player.mk? db h with
    | some p => .ok p
    | none => .error .indexErr
  else .error .notFound

/-- `Player.last_games`: all game ids newest-first when `number = 0`, else
the newest `number` of them. -/
def PlayerView.last_games (p : PlayerView) (number : Nat) : List Nat :=
  if number = 0 then p.game_ids.reverse else p.game_ids.reverse.take number

/-- The `GamePlayer` rows the ratio queries range over: this player's
records in the windowed games passing the normal-weapons filter. -/
def PlayerView.windowRecords (db : DB) (p : PlayerView) (games_ago : Nat) :
    List GamePlayer :=
  let games := p.last_games games_ago
  db.gameplayers.filter (fun r =>
    decide (r.game_id ∈ games) && db.re_normal_weapons r.game_id &&
      r.handle == p.handle)

/-- The `GameWeapon` rows the damage queries range over. -/
def PlayerView.windowWeaponRecords (db : DB) (p : PlayerView)
    (games_ago : Nat) : List GameWeapon :=
  let games := p.last_games games_ago
  db.gameweapons.filter (fun r =>
    decide (r.game_id ∈ games) && db.re_normal_weapons r.game_id &&
      r.playerhandle == p.handle)

/-- `Player.dpm`: weapon damage (both sides) per minute alive, over the
windowed games passing the normal-weapons filter. -/
def PlayerView.dpm (db : DB) (p : PlayerView) (games_ago : Nat) : ℚ :=
  let wrecs := p.windowWeaponRecords db games_ago
  let d1 := (sqlSum (wrecs.map (fun r => r.damage1))).getD 0
  let d2 := (sqlSum (wrecs.map (fun r => r.damage2))).getD 0
  let time := (sqlSum ((p.windowRecords db games_ago).map
    (fun r => r.timealive))).getD 0
  ((d1 + d2 : Int) : ℚ) / (((max 1 time : Int) : ℚ) / 60)

/-- `Player.fpm`: frags per minute alive over the windowed, filtered games. -/
def PlayerView.fpm (db : DB) (p : PlayerView) (games_ago : Nat) : ℚ :=
  let precs := p.windowRecords db games_ago
  let time := (sqlSum (precs.map (fun r => r.timealive))).getD 0
  let frags := (sqlSum (precs.map (fun r => r.frags))).getD 0
  ((frags : Int) : ℚ) / (((max 1 time : Int) : ℚ) / 60)

/-- `Player.kdr`: frags over deaths (deaths floored at 1). -/
def PlayerView.kdr (db : DB) (p : PlayerView) (games_ago : Nat) : ℚ :=
  let precs := p.windowRecords db games_ago
  let frags := (sqlSum (precs.map (fun r => r.frags))).getD 0
  let deaths := (sqlSum (precs.map (fun r => r.deaths))).getD 0
  ((frags : Int) : ℚ) / (((max 1 deaths : Int) : ℚ))

/-- `Player.dfr`: weapon damage (both sides) over frags (frags floored
at 1). -/
def PlayerView.dfr (db : DB) (p : PlayerView) (games_ago : Nat) : ℚ :=
  let wrecs := p.windowWeaponRecords db games_ago
  let d1 := (sqlSum (wrecs.map (fun r => r.damage1))).getD 0
  let d2 := (sqlSum (wrecs.map (fun r => r.damage2))).getD 0
  let frags := (sqlSum ((p.windowRecords db games_ago).map
    (fun r => r.frags))).getD 0
  ((d1 + d2 : Int) : ℚ) / (((max 1 frags : Int) : ℚ))

/-- One entry of `Player.topmaps`. -/
structure TopMapEntry where
  name : String
  games : Nat
  deriving DecidableEq, Repr

/-- The map-name occurrence list over the windowed games. -/
def PlayerView.windowMaps (db : DB) (p : PlayerView) (games_ago : Nat) :
    List String :=
  (db.games.filter (fun g => decide (g.id ∈ p.last_games games_ago))).map
    (fun g => g.map)

/-- `Player.topmaps`: map occurrence counts over the windowed games, Python's
two stable sorts (distinct names ascending, then counts descending; the
stable second sort keeps equal counts in ascending-name order). -/
def PlayerView.topmaps (db : DB) (p : PlayerView) (games_ago : Nat) :
    List TopMapEntry :=
  let maps := p.windowMaps db games_ago
  sortLe (fun a b => decide (b.games ≤ a.games))
    ((sortLe (fun a b => decide (a ≤ b)) maps.dedup).map
      (fun m => { name := m, games := maps.count m }))

/-- The `Server` view.  Its first/latest queries filter by game id only
(the source omits the handle filter present in `Player.__init__`). -/
structure ServerView where
  handle : String
  game_ids : List Nat
  latest : Option GameServer
  first : Option GameServer
  deriving DecidableEq, Repr

/-- Bare-column `game_id` representative of a server handle's group, as in
`Player.lastRef`. -/
def Server.lastRef (db : DB) (h : String) : Nat :=
  ((db.gameservers.filter (fun r => r.handle == h)).map (fun r => r.game_id)).foldl max 0

/-- `Server.handle_list`. -/
def Server.handle_list (db : DB) : List String :=
  sortLe (fun a b => decide (Server.lastRef db b ≤ Server.lastRef db a))
    ((db.gameservers.map (fun r => r.handle)).filter (fun h => h != "")).dedup

/-- `Server.count`. -/
def Server.count (db : DB) : Nat :=
  ((db.gameservers.map (fun r => r.handle)).filter (fun h => h != "")).dedup.length

/-- The game-id list built by `Server.__init__`. -/
def Server.computeGameIds (db : DB) (h : String) : List Nat :=
  let all_games := db.games.map (fun g => g.id)
  ((db.gameservers.filter (fun r => r.handle == h)).map (fun r => r.game_id)).filter
    (fun i => decide (i ∈ all_games))

/-- `Server.__init__`; `none` models the `IndexError` on an empty list. -/
def Server.mk? (db : DB) (h : String) : Option ServerView :=
  let gids := Server.computeGameIds db h
  if gids.isEmpty then none
  else some {
    handle := h
    game_ids := gids
    latest := (db.gameservers.filter (fun r => r.game_id == gids.getLastD 0)).head?
    first := (db.gameservers.filter (fun r => r.game_id == gids.headD 0)).head? }

/-- `Server.get_or_404`. -/
def Server.get_or_404 (db : DB) (h : String) : Except ResolveErr ServerView :=
  if h ∈ Server.handle_list db then
    match Server.mk? db h with
    | some s => .ok s
    | none => .error .indexErr
  else .error .notFound

/-- The `Map` view; `gametime`/`playertime` keep SQL's `NULL` (`none`) since
`Map.__init__` stores `.first()[0]` without a default. -/
structure MapView where
  name : String
  game_ids : List Nat
  latest : Option Game
  first : Option Game
  gametime : Option Int
  playertime : Option Int
  deriving DecidableEq, Repr

/-- The games visible to race listings: mode "race" with mutator "timed". -/
def Map.raceGames (db : DB) : List Game :=
  db.games.filter (fun g => db.re_mode g.id "race" && db.re_mut g.id "timed")

/-- Bare-column `game_id` representative of a map name's group. -/
def Map.lastRef (db : DB) (race : Bool) (m : String) : Nat :=
  (((if race then Map.raceGames db else db.games).filter
    (fun g => g.map == m)).map (fun g => g.id)).foldl max 0

/-- `Map.map_list`: distinct map names (race-filtered when asked), ordered by
the group's bare game id descending. -/
def Map.map_list (db : DB) (race : Bool) : List String :=
  sortLe (fun a b => decide (Map.lastRef db race b ≤ Map.lastRef db race a))
    ((if race then Map.raceGames db else db.games).map (fun g => g.map)).dedup

/-- `Map.count`: number of distinct (race-filtered) map names. -/
def Map.count (db : DB) (race : Bool) : Nat :=
  ((if race then Map.raceGames db else db.games).map (fun g => g.map)).dedup.length

/-- The game-id list built by `Map.__init__`. -/
def Map.computeGameIds (db : DB) (name : String) : List Nat :=
  (db.games.filter (fun g => g.map == name)).map (fun g => g.id)

/-- `Map.__init__`; `none` models the `IndexError` on an empty list. -/
def Map.mk? (db : DB) (name : String) : Option MapView :=
  let gids := Map.computeGameIds db name
  if gids.isEmpty then none
  else some {
    name := name
    game_ids := gids
    latest := (db.games.filter (fun g => g.id == gids.getLastD 0)).head?
    first := (db.games.filter (fun g => g.id == gids.headD 0)).head?
    gametime := sqlSum ((db.games.filter (fun g => g.map == name)).map
      (fun g => g.timeplayed))
    playertime := sqlSum ((db.gameplayers.filter
      (fun r => decide (r.game_id ∈ gids))).map (fun r => r.timeactive)) }

/-- `Map.get_or_404` (checks the non-race listing). -/
def Map.get_or_404 (db : DB) (name : String) : Except ResolveErr MapView :=
  if name ∈ Map.map_list db false then
    match Map.mk? db name with
    | some m => .ok m
    | none => .error .indexErr
  else .error .notFound

/-- A result value of the pagination adapter. -/
structure Pagination (α : Type _) where
  items : List α
  page : Nat
  per_page : Nat
  total : Nat
  pages : Nat

/-- Modelled from the spec: `to_pagination` from `modelutils` (the module is
not under src/): slices via the supplied lister, reports `total` from the
supplied counter and `pages = max 1 (ceil (total / per_page))`. -/
def to_pagination (page per_page : Nat) (lister : Nat → Nat → List α)
    (counter : Unit → Nat) : Pagination α :=
  { items := lister page per_page
    page := page
    per_page := per_page
    total := counter ()
    pages := max 1 ((counter () + per_page - 1) / per_page) }

/-- `Map.all`: materialize views for (a slice of) the map listing.  Maps in
the listing always have at least one game, so `filterMap` drops nothing. -/
def Map.all (db : DB) (page : Nat) (pagesize : Option Nat) (race : Bool) :
    List MapView :=
  let names := Map.map_list db race
  let chosen := match pagesize with
    | none => names
    | some ps => (names.drop (page * ps)).take ps
  chosen.filterMap (Map.mk? db)

/-- `Map.paginate`: note the counter is `cls.count(True)` — the race-map
count — regardless of the `race` argument, as in the source. -/
def Map.paginate (db : DB) (page per_page : Nat) (race : Bool) :
    Pagination MapView :=
  to_pagination page per_page (fun a b => Map.all db a (some b) race)
    (fun _ => Map.count db true)

/-- One row of `Map.topraces`. -/
structure RaceRow where
  game_id : Nat
  handle : String
  name : String
  score : Int
  whenTime : Nat
  deriving DecidableEq, Repr

/-- The filter chain of `Map.topraces`: this map's games joined with `Game`,
timed race mode, endurance when requested, no freestyle, positive score. -/
def raceQualifies (db : DB) (mv : MapView) (endurance : Bool)
    (r : GamePlayer) : Bool :=
  decide (r.game_id ∈ mv.game_ids) && (db.gameById r.game_id).isSome &&
    db.re_mode r.game_id "race" && db.re_mut r.game_id "timed" &&
    (!endurance || db.re_mut r.game_id "endurance") &&
    !db.re_mut r.game_id "freestyle" && decide (0 < r.score)

/-- The row SQLite's `GROUP BY handle` with a unique `min(score)` aggregate
selects for a group: a row carrying the group's minimum score. -/
def minScoreRecord : List GamePlayer → Option GamePlayer
  | [] => none
  | r :: rs =>
    match minScoreRecord rs with
    | none => some r
    | some m => if m.score < r.score then some m else some r

/-- The qualifying `GamePlayer` rows of `Map.topraces`. -/
def MapView.raceRows (db : DB) (mv : MapView) (endurance : Bool) :
    List GamePlayer :=
  db.gameplayers.filter (raceQualifies db mv endurance)

/-- The per-handle best rows: for each distinct handle among the qualifying
rows, the row SQLite's grouping selects (carrying the minimum score). -/
def MapView.raceBest (db : DB) (mv : MapView) (endurance : Bool) :
    List GamePlayer :=
  ((mv.raceRows db endurance).map (fun r => r.handle)).dedup.filterMap
    (fun h => minScoreRecord ((mv.raceRows db endurance).filter
      (fun r => r.handle == h)))

/-- Assembly of a result row (`Game.time` is the joined "when" column). -/
def mkRaceRow (db : DB) (r : GamePlayer) : RaceRow :=
  { game_id := r.game_id, handle := r.handle, name := r.name,
    score := r.score,
    whenTime := ((db.gameById r.game_id).map (fun g => g.time)).getD 0 }

/-- `Map.topraces`: qualifying rows grouped per handle at the handle's best
(minimum) score, ordered by ascending score, truncated to the configured
maximum result count. -/
def MapView.topraces (db : DB) (mv : MapView) (endurance : Bool) :
    List RaceRow :=
  (sortLe (fun a b => decide (a.score ≤ b.score))
    ((mv.raceBest db endurance).map (mkRaceRow db))).take
    db.api_highscore_results

/-- The `Mode` view (the display long name is presentation-only and not
modelled). -/
structure ModeView where
  name : String
  game_ids : List Nat
  deriving DecidableEq, Repr

/-- `Mode.mode_list`: catalog mode names minus the internal "demo" and
"edit" modes. -/
def Mode.mode_list (cat : Ruleset) : List String :=
  cat.modes.filter (fun m => decide (m ∉ ["demo", "edit"]))

/-- `Mode.count`. -/
def Mode.count (cat : Ruleset) : Nat :=
  (Mode.mode_list cat).length

/-- `Mode.__init__`: games matching the mode predicate. -/
def Mode.mk (db : DB) (name : String) : ModeView :=
  { name := name
    game_ids := (db.games.filter (fun g => db.re_mode g.id name)).map (fun g => g.id) }

/-- `Mode.get_or_404`. -/
def Mode.get_or_404 (db : DB) (cat : Ruleset) (name : String) :
    Except ResolveErr ModeView :=
  if name ∈ Mode.mode_list cat then .ok (Mode.mk db name)
  else .error .notFound

/-- The `Mutator` view. -/
structure MutatorView where
  name : String
  game_ids : List Nat
  deriving DecidableEq, Repr

/-- `Mutator.mutator_list`: base mutator names plus mode-qualified
`"<mode>-<mut>"` compounds for mode-specific mutators. -/
def Mutator.mutator_list (cat : Ruleset) : List String :=
  cat.basemuts ++
    cat.modes.flatMap (fun m => (cat.gspmuts m).map (fun mu => m ++ "-" ++ mu))

/-- `Mutator.count`. -/
def Mutator.count (cat : Ruleset) : Nat :=
  (Mutator.mutator_list cat).length

/-- `Mutator.__init__`: a compound name filters on both parts. -/
def Mutator.mk (db : DB) (name : String) : MutatorView :=
  if name.contains '-' then
    let parts := name.splitOn "-"
    { name := name
      game_ids := (db.games.filter (fun g =>
        db.re_mut g.id (parts.getD 1 "") && db.re_mode g.id (parts.getD 0 ""))).map
        (fun g => g.id) }
  else
    { name := name
      game_ids := (db.games.filter (fun g => db.re_mut g.id name)).map (fun g => g.id) }

/-- `Mutator.get_or_404`. -/
def Mutator.get_or_404 (db : DB) (cat : Ruleset) (name : String) :
    Except ResolveErr MutatorView :=
  if name ∈ Mutator.mutator_list cat then .ok (Mutator.mk db name)
  else .error .notFound

/-- A `Weapon` summary: name plus the fixed counter set. -/
structure WeaponStats where
  name : String
  timewielded : Int
  timeloadout : Int
  damage1 : Int
  frags1 : Int
  hits1 : Int
  flakhits1 : Int
  shots1 : Int
  flakshots1 : Int
  damage2 : Int
  frags2 : Int
  hits2 : Int
  flakhits2 : Int
  shots2 : Int
  flakshots2 : Int
  deriving DecidableEq, Repr

/-- `Weapon.weapon_list`: the catalog's default weapon names. -/
def Weapon.weapon_list (cat : Ruleset) : List String :=
  cat.weaponlist

/-- `Weapon.count`. -/
def Weapon.count (cat : Ruleset) : Nat :=
  (Weapon.weapon_list cat).length

/-- `Weapon.finish_query`: sum every fixed column over the scoped rows,
turning SQL's `NULL` sums (empty scope) into 0. -/
def Weapon.finish_query (name : String) (rows : List GameWeapon) : WeaponStats :=
  { name := name
    timewielded := (sqlSum (rows.map (fun r => r.timewielded))).getD 0
    timeloadout := (sqlSum (rows.map (fun r => r.timeloadout))).getD 0
    damage1 := (sqlSum (rows.map (fun r => r.damage1))).getD 0
    frags1 := (sqlSum (rows.map (fun r => r.frags1))).getD 0
    hits1 := (sqlSum (rows.map (fun r => r.hits1))).getD 0
    flakhits1 := (sqlSum (rows.map (fun r => r.flakhits1))).getD 0
    shots1 := (sqlSum (rows.map (fun r => r.shots1))).getD 0
    flakshots1 := (sqlSum (rows.map (fun r => r.flakshots1))).getD 0
    damage2 := (sqlSum (rows.map (fun r => r.damage2))).getD 0
    frags2 := (sqlSum (rows.map (fun r => r.frags2))).getD 0
    hits2 := (sqlSum (rows.map (fun r => r.hits2))).getD 0
    flakhits2 := (sqlSum (rows.map (fun r => r.flakhits2))).getD 0
    shots2 := (sqlSum (rows.map (fun r => r.shots2))).getD 0
    flakshots2 := (sqlSum (rows.map (fun r => r.flakshots2))).getD 0 }

/-- Rows in scope for `Weapon.from_player`. -/
def Weapon.rowsPlayer (db : DB) (w p : String) : List GameWeapon :=
  db.gameweapons.filter (fun r => r.weapon == w && r.playerhandle == p)

/-- Rows in scope for `Weapon.from_player_games`. -/
def Weapon.rowsPlayerGames (db : DB) (w p : String) (games : List Nat) :
    List GameWeapon :=
  db.gameweapons.filter (fun r =>
    r.weapon == w && r.playerhandle == p && decide (r.game_id ∈ games))

/-- Rows in scope for `Weapon.from_game`. -/
def Weapon.rowsGame (db : DB) (w : String) (game : Nat) : List GameWeapon :=
  db.gameweapons.filter (fun r => r.weapon == w && r.game_id == game)

/-- Rows in scope for `Weapon.from_games`. -/
def Weapon.rowsGames (db : DB) (w : String) (games : List Nat) :
    List GameWeapon :=
  db.gameweapons.filter (fun r => r.weapon == w && decide (r.game_id ∈ games))

/-- Rows in scope for `Weapon.from_f` (the extra filter criteria are the
predicate `f`). -/
def Weapon.rowsF (db : DB) (w : String) (f : GameWeapon → Bool) :
    List GameWeapon :=
  db.gameweapons.filter (fun r => r.weapon == w && f r)

/-- Rows in scope for `Weapon.from_game_player`. -/
def Weapon.rowsGamePlayer (db : DB) (w : String) (game : Nat) (p : String) :
    List GameWeapon :=
  db.gameweapons.filter (fun r =>
    r.weapon == w && r.game_id == game && r.playerhandle == p)

/-- Rows in scope for `Weapon.from_weapon`. -/
def Weapon.rowsWeapon (db : DB) (w : String) : List GameWeapon :=
  db.gameweapons.filter (fun r => r.weapon == w)

/-- `Weapon.from_player`. -/
def Weapon.from_player (db : DB) (w p : String) : WeaponStats :=
  Weapon.finish_query w (Weapon.rowsPlayer db w p)

/-- `Weapon.from_player_games`. -/
def Weapon.from_player_games (db : DB) (w p : String) (games : List Nat) :
    WeaponStats :=
  Weapon.finish_query w (Weapon.rowsPlayerGames db w p games)

/-- `Weapon.from_game`. -/
def Weapon.from_game (db : DB) (w : String) (game : Nat) : WeaponStats :=
  Weapon.finish_query w (Weapon.rowsGame db w game)

/-- `Weapon.from_games`. -/
def Weapon.from_games (db : DB) (w : String) (games : List Nat) : WeaponStats :=
  Weapon.finish_query w (Weapon.rowsGames db w games)

/-- `Weapon.from_f`. -/
def Weapon.from_f (db : DB) (w : String) (f : GameWeapon → Bool) : WeaponStats :=
  Weapon.finish_query w (Weapon.rowsF db w f)

/-- `Weapon.from_game_player`. -/
def Weapon.from_game_player (db : DB) (w : String) (game : Nat) (p : String) :
    WeaponStats :=
  Weapon.finish_query w (Weapon.rowsGamePlayer db w game p)

/-- `Weapon.from_weapon`. -/
def Weapon.from_weapon (db : DB) (w : String) : WeaponStats :=
  Weapon.finish_query w (Weapon.rowsWeapon db w)

/-- `Weapon.get_or_404`. -/
def Weapon.get_or_404 (db : DB) (cat : Ruleset) (name : String) :
    Except ResolveErr WeaponStats :=
  if name ∈ Weapon.weapon_list cat then .ok (Weapon.from_weapon db name)
  else .error .notFound

/-- `Weapon.is_not_wielded`. -/
def WeaponStats.is_not_wielded (cat : Ruleset) (ws : WeaponStats) : Bool :=
  decide (ws.name ∈ cat.notwielded)

/-- `Weapon.time`: loadout time for passive weapons, wielded time
otherwise. -/
def WeaponStats.time (cat : Ruleset) (ws : WeaponStats) : Int :=
  if ws.is_not_wielded cat then ws.timeloadout else ws.timewielded

/-- Storage well-formedness: tables are stored in ascending game-id order
(game ids are assigned monotonically at game completion and rows are
inserted then), game ids are unique, and the per-game record-uniqueness
invariants of the data model hold. -/
def DB.WF (db : DB) : Prop :=
  db.games.Pairwise (fun a b => a.id < b.id) ∧
  db.gameplayers.Pairwise (fun a b => a.game_id ≤ b.game_id) ∧
  db.gameplayers.Pairwise (fun a b => a.game_id = b.game_id → a.handle ≠ b.handle) ∧
  db.gameservers.Pairwise (fun a b => a.game_id ≤ b.game_id) ∧
  db.gameservers.Pairwise (fun a b => a.game_id ≠ b.game_id)

/-- Written from the spec's words, for comparison with the code: the
"`w` most recent of the player's games" as the suffix of the ascending
game-id list — all games when `w = 0`, clamped when `w` exceeds the number
of games. -/
def specWindow (p : PlayerView) (w : Nat) : List Nat :=
  if w = 0 then p.game_ids else p.game_ids.drop (p.game_ids.length - w)

/-- Written from the spec's words: this player's records in the windowed
games that pass the normal-weapons filter. -/
def specWindowRecords (db : DB) (p : PlayerView) (w : Nat) : List GamePlayer :=
  db.gameplayers.filter (fun r =>
    decide (r.game_id ∈ specWindow p w) && db.re_normal_weapons r.game_id &&
      r.handle == p.handle)

/-- Field-by-field agreement of a weapon summary with the column sums over
its scoped rows. -/
def statsMatch (ws : WeaponStats) (rows : List GameWeapon) : Prop :=
  ws.timewielded = (rows.map (fun r => r.timewielded)).sum ∧
  ws.timeloadout = (rows.map (fun r => r.timeloadout)).sum ∧
  ws.damage1 = (rows.map (fun r => r.damage1)).sum ∧
  ws.frags1 = (rows.map (fun r => r.frags1)).sum ∧
  ws.hits1 = (rows.map (fun r => r.hits1)).sum ∧
  ws.flakhits1 = (rows.map (fun r => r.flakhits1)).sum ∧
  ws.shots1 = (rows.map (fun r => r.shots1)).sum ∧
  ws.flakshots1 = (rows.map (fun r => r.flakshots1)).sum ∧
  ws.damage2 = (rows.map (fun r => r.damage2)).sum ∧
  ws.frags2 = (rows.map (fun r => r.frags2)).sum ∧
  ws.hits2 = (rows.map (fun r => r.hits2)).sum ∧
  ws.flakhits2 = (rows.map (fun r => r.flakhits2)).sum ∧
  ws.shots2 = (rows.map (fun r => r.shots2)).sum ∧
  ws.flakshots2 = (rows.map (fun r => r.flakshots2)).sum

/-- Every fixed counter of a weapon summary is 0. -/
def statsZero (ws : WeaponStats) : Prop :=
  ws.timewielded = 0 ∧ ws.timeloadout = 0 ∧
  ws.damage1 = 0 ∧ ws.frags1 = 0 ∧ ws.hits1 = 0 ∧ ws.flakhits1 = 0 ∧
  ws.shots1 = 0 ∧ ws.flakshots1 = 0 ∧
  ws.damage2 = 0 ∧ ws.frags2 = 0 ∧ ws.hits2 = 0 ∧ ws.flakhits2 = 0 ∧
  ws.shots2 = 0 ∧ ws.flakshots2 = 0

/-- An empty database (no games and no records). -/
def emptyDb : DB :=
  { games := [], gameplayers := [], gameservers := [], gameweapons := []
    api_highscore_results := 5 }

/-- An empty ruleset catalog. -/
def emptyCat : Ruleset :=
  { modes := [], basemuts := [], gspmuts := fun _ => [], weaponlist := []
    notwielded := [] }

/-- A small concrete catalog for witnesses. -/
def sampleCat : Ruleset :=
  { modes := ["deathmatch", "capture", "race", "demo", "edit"]
    basemuts := ["multi", "ffa"]
    gspmuts := fun m => if m == "race" then ["timed", "endurance"] else []
    weaponlist := ["sword", "shotgun"]
    notwielded := ["melee"] }

/-- The spec's example player "Ace": 3 games with timeAlive [60, 120, 0]
and frags [5, 0, 3], all passing the normal-weapons filter. -/
def aceDb : DB :=
  { games := [
      { id := 1, map := "m1", time := 10, timeplayed := 600,
        mode := "deathmatch", mutators := [], normalweapons := true },
      { id := 2, map := "m2", time := 20, timeplayed := 600,
        mode := "deathmatch", mutators := [], normalweapons := true },
      { id := 3, map := "m1", time := 30, timeplayed := 600,
        mode := "deathmatch", mutators := [], normalweapons := true }]
    gameplayers := [
      { game_id := 1, handle := "Ace", name := "Ace", frags := 5, deaths := 0,
        score := 0, timealive := 60, timeactive := 60 },
      { game_id := 2, handle := "Ace", name := "Ace", frags := 0, deaths := 0,
        score := 0, timealive := 120, timeactive := 120 },
      { game_id := 3, handle := "Ace", name := "Ace", frags := 3, deaths := 0,
        score := 0, timealive := 0, timeactive := 0 }]
    gameservers := []
    gameweapons := []
    api_highscore_results := 10 }

/-- The player view for "Ace" in `aceDb`. -/
def aceView : PlayerView :=
  { handle := "Ace", game_ids := [1, 2, 3]
    latest := some { game_id := 3, handle := "Ace", name := "Ace",
                     frags := 3, deaths := 0, score := 0, timealive := 0,
                     timeactive := 0 }
    first := some { game_id := 1, handle := "Ace", name := "Ace",
                    frags := 5, deaths := 0, score := 0, timealive := 60,
                    timeactive := 60 } }

/-- A database whose single player record carries a negative frag count
(the column is unconstrained in the schema; e.g. suicide penalties). -/
def negDb : DB :=
  { games := [
      { id := 1, map := "m1", time := 10, timeplayed := 600,
        mode := "deathmatch", mutators := [], normalweapons := true }]
    gameplayers := [
      { game_id := 1, handle := "a", name := "a", frags := -5, deaths := 0,
        score := 0, timealive := 60, timeactive := 60 }]
    gameservers := []
    gameweapons := []
    api_highscore_results := 10 }

/-- The player view for "a" in `negDb`. -/
def negView : PlayerView :=
  { handle := "a", game_ids := [1]
    latest := some { game_id := 1, handle := "a", name := "a",
                     frags := -5, deaths := 0, score := 0, timealive := 60,
                     timeactive := 60 }
    first := some { game_id := 1, handle := "a", name := "a",
                    frags := -5, deaths := 0, score := 0, timealive := 60,
                    timeactive := 60 } }

/-- Two maps, one of which ("alpha") is a race map: `Map.count` differs
between race and non-race listings. -/
def c8Db : DB :=
  { games := [
      { id := 1, map := "alpha", time := 10, timeplayed := 600,
        mode := "race", mutators := ["timed"], normalweapons := true },
      { id := 2, map := "beta", time := 20, timeplayed := 600,
        mode := "capture", mutators := [], normalweapons := true }]
    gameplayers := []
    gameservers := []
    gameweapons := []
    api_highscore_results := 10 }

/-- A database whose `GamePlayer`/`GameServer` rows reference game 1 while
the `Game` table is empty (the game was deleted). -/
def orphanDb : DB :=
  { games := []
    gameplayers := [
      { game_id := 1, handle := "a", name := "a", frags := 0, deaths := 0,
        score := 0, timealive := 0, timeactive := 0 }]
    gameservers := [{ game_id := 1, handle := "a" }]
    gameweapons := []
    api_highscore_results := 10 }

/-- Race database: map "r1" with two timed-race games; handle "h1" finished
in 20 then 10, handle "h2" finished in 15, an incomplete attempt scored 0. -/
def raceDb : DB :=
  { games := [
      { id := 1, map := "r1", time := 100, timeplayed := 600,
        mode := "race", mutators := ["timed"], normalweapons := true },
      { id := 2, map := "r1", time := 200, timeplayed := 600,
        mode := "race", mutators := ["timed"], normalweapons := true }]
    gameplayers := [
      { game_id := 1, handle := "h1", name := "H1", frags := 0, deaths := 0,
        score := 20, timealive := 60, timeactive := 60 },
      { game_id := 1, handle := "h2", name := "H2", frags := 0, deaths := 0,
        score := 15, timealive := 60, timeactive := 60 },
      { game_id := 2, handle := "h1", name := "H1", frags := 0, deaths := 0,
        score := 10, timealive := 60, timeactive := 60 },
      { game_id := 2, handle := "h2", name := "H2", frags := 0, deaths := 0,
        score := 0, timealive := 60, timeactive := 60 }]
    gameservers := []
    gameweapons := []
    api_highscore_results := 5 }

/-- A map view over `raceDb`'s map "r1". -/
def raceView : MapView :=
  { name := "r1", game_ids := [1, 2], latest := none, first := none
    gametime := none, playertime := none }

/-- Modelled from the spec: well-formedness of the external ruleset catalog
(its listings are "ordered set[s]" of names): names are distinct; mode and
base-mutator names are non-empty and dash-free (the dash is the
compound-name separator); per-mode mutator lists are duplicate-free; weapon
names are distinct and non-empty. -/
def Ruleset.WF (cat : Ruleset) : Prop :=
  cat.modes.Nodup ∧ (∀ m ∈ cat.modes, m ≠ "" ∧ '-' ∉ m.data) ∧
  cat.basemuts.Nodup ∧ (∀ m ∈ cat.basemuts, m ≠ "" ∧ '-' ∉ m.data) ∧
  (∀ m ∈ cat.modes, (cat.gspmuts m).Nodup) ∧
  cat.weaponlist.Nodup ∧ (∀ w ∈ cat.weaponlist, w ≠ "")

/-- A database holding one game whose stored map name is the empty string. -/
def emptyMapDb : DB :=
  { games := [
      { id := 1, map := "", time := 10, timeplayed := 600,
        mode := "deathmatch", mutators := [], normalweapons := true }]
    gameplayers := [], gameservers := [], gameweapons := []
    api_highscore_results := 10 }

theorem insertLe_perm (le : α → α → Bool) (x : α) (l : List α) :
    (insertLe le x l).Perm (x :: l) := by
  induction l with
  | nil => simp [insertLe]
  | cons y ys ih =>
    simp only [insertLe]
    split
    · exact List.Perm.refl _
    · exact (List.Perm.cons y ih).trans (List.Perm.swap x y ys)

theorem sortLe_perm (le : α → α → Bool) (l : List α) :
    (sortLe le l).Perm l := by
  induction l with
  | nil => simp [sortLe]
  | cons x xs ih =>
    exact (insertLe_perm le x (sortLe le xs)).trans (List.Perm.cons x ih)

theorem mem_insertLe {le : α → α → Bool} {x z : α} {l : List α} :
    z ∈ insertLe le x l ↔ z = x ∨ z ∈ l := by
  have := (insertLe_perm le x l).mem_iff (a := z)
  simpa using this

theorem mem_sortLe {le : α → α → Bool} {z : α} {l : List α} :
    z ∈ sortLe le l ↔ z ∈ l := (sortLe_perm le l).mem_iff

theorem insertLe_pairwise {S : α → α → Prop} {le : α → α → Bool} {x : α}
    {l : List α} (hl : l.Pairwise S)
    (hxz : ∀ z ∈ l, (le x z = true → S x z) ∧ (le x z = false → S z x))
    (hstep : ∀ y z, le x y = true → S y z → le x z = true) :
    (insertLe le x l).Pairwise S := by
  induction l with
  | nil => simp [insertLe]
  | cons y ys ih =>
    simp only [insertLe]
    rcases List.pairwise_cons.mp hl with ⟨hy, hys⟩
    by_cases hxy : le x y = true
    · simp only [hxy, if_true]
      refine List.pairwise_cons.mpr ⟨?_, hl⟩
      intro z hz
      rcases List.mem_cons.mp hz with rfl | hz
      · exact (hxz z (List.mem_cons_self _ _)).1 hxy
      · exact (hxz z (List.mem_cons_of_mem _ hz)).1 (hstep y z hxy (hy z hz))
    · rw [if_neg hxy]
      refine List.pairwise_cons.mpr ⟨?_, ?_⟩
      · intro z hz
        rcases mem_insertLe.mp hz with rfl | hz
        · exact (hxz y (List.mem_cons_self _ _)).2 (Bool.not_eq_true _ ▸ hxy)
        · exact hy z hz
      · exact ih hys (fun z hz => hxz z (List.mem_cons_of_mem _ hz))

theorem sortLe_pairwise {S : α → α → Prop} {le : α → α → Bool} {l : List α}
    (hC : l.Pairwise (fun a b => (le a b = true → S a b) ∧ (le a b = false → S b a)))
    (hstep : ∀ x y z : α, le x y = true → S y z → le x z = true) :
    (sortLe le l).Pairwise S := by
  induction l with
  | nil => simp [sortLe]
  | cons x xs ih =>
    rcases List.pairwise_cons.mp hC with ⟨hx, hxs⟩
    exact insertLe_pairwise (ih hxs)
      (fun z hz => hx z (mem_sortLe.mp hz))
      (fun y z => hstep x y z)

theorem pairwise_of_forall {R : α → α → Prop} (h : ∀ a b, R a b) :
    ∀ l : List α, l.Pairwise R
  | [] => List.Pairwise.nil
  | _ :: xs => List.pairwise_cons.mpr ⟨fun b _ => h _ b, pairwise_of_forall h xs⟩

theorem sqlSum_getD (l : List Int) : (sqlSum l).getD 0 = l.sum := by
  by_cases h : l.isEmpty
  · simp [sqlSum, h, List.isEmpty_iff.mp h]
  · simp [sqlSum, h]

theorem finish_query_statsMatch (n : String) (rows : List GameWeapon) :
    statsMatch (Weapon.finish_query n rows) rows := by
  simp [statsMatch, Weapon.finish_query, sqlSum_getD]

theorem statsMatch_nil_zero {ws : WeaponStats} (h : statsMatch ws []) :
    statsZero ws := by
  simpa [statsMatch, statsZero] using h

/-- C9: every weapon-summary scope constructor (`from_player`,
`from_player_games`, `from_game`, `from_games`, `from_game_player`,
`from_f`, `from_weapon`) returns each fixed counter equal to the sum of its
column over the matching `GameWeapon` rows, and every counter equal to 0 —
not null/absent — when no rows match. -/
theorem c9_weapon_counters (db : DB) (w p : String) (game : Nat)
    (games : List Nat) (f : GameWeapon → Bool) :
    (statsMatch (Weapon.from_player db w p) (Weapon.rowsPlayer db w p) ∧
      (Weapon.rowsPlayer db w p = [] →
        statsZero (Weapon.from_player db w p))) ∧
    (statsMatch (Weapon.from_player_games db w p games)
        (Weapon.rowsPlayerGames db w p games) ∧
      (Weapon.rowsPlayerGames db w p games = [] →
        statsZero (Weapon.from_player_games db w p games))) ∧
    (statsMatch (Weapon.from_game db w game) (Weapon.rowsGame db w game) ∧
      (Weapon.rowsGame db w game = [] →
        statsZero (Weapon.from_game db w game))) ∧
    (statsMatch (Weapon.from_games db w games) (Weapon.rowsGames db w games) ∧
      (Weapon.rowsGames db w games = [] →
        statsZero (Weapon.from_games db w games))) ∧
    (statsMatch (Weapon.from_game_player db w game p)
        (Weapon.rowsGamePlayer db w game p) ∧
      (Weapon.rowsGamePlayer db w game p = [] →
        statsZero (Weapon.from_game_player db w game p))) ∧
    (statsMatch (Weapon.from_f db w f) (Weapon.rowsF db w f) ∧
      (Weapon.rowsF db w f = [] → statsZero (Weapon.from_f db w f))) ∧
    (statsMatch (Weapon.from_weapon db w) (Weapon.rowsWeapon db w) ∧
      (Weapon.rowsWeapon db w = [] → statsZero (Weapon.from_weapon db w))) := by
  refine ⟨⟨finish_query_statsMatch _ _, fun he => ?_⟩,
    ⟨finish_query_statsMatch _ _, fun he => ?_⟩,
    ⟨finish_query_statsMatch _ _, fun he => ?_⟩,
    ⟨finish_query_statsMatch _ _, fun he => ?_⟩,
    ⟨finish_query_statsMatch _ _, fun he => ?_⟩,
    ⟨finish_query_statsMatch _ _, fun he => ?_⟩,
    ⟨finish_query_statsMatch _ _, fun he => ?_⟩⟩ <;>
  exact statsMatch_nil_zero (he ▸ finish_query_statsMatch _ _)

/-- C9 witness: at the empty database the player scope matches no rows and
every counter is 0. -/
theorem c9_weapon_counters_witness :
    Weapon.rowsPlayer emptyDb "sword" "a" = [] ∧
    statsZero (Weapon.from_player emptyDb "sword" "a") :=
  ⟨rfl, ((c9_weapon_counters emptyDb "sword" "a" 0 []
    (fun _ => true)).1).2 rfl⟩

/-- C6: for every entity kind, resolving a name absent from that kind's
listing yields `NotFound`, with no default substituted. -/
theorem c6_get_or_404_notFound (db : DB) (cat : Ruleset) (name : String) :
    (name ∉ Player.handle_list db →
      Player.get_or_404 db name = .error .notFound) ∧
    (name ∉ Server.handle_list db →
      Server.get_or_404 db name = .error .notFound) ∧
    (name ∉ Map.map_list db false →
      Map.get_or_404 db name = .error .notFound) ∧
    (name ∉ Mode.mode_list cat →
      Mode.get_or_404 db cat name = .error .notFound) ∧
    (name ∉ Mutator.mutator_list cat →
      Mutator.get_or_404 db cat name = .error .notFound) ∧
    (name ∉ Weapon.weapon_list cat →
      Weapon.get_or_404 db cat name = .error .notFound) := by
  refine ⟨fun h => ?_, fun h => ?_, fun h => ?_, fun h => ?_, fun h => ?_,
    fun h => ?_⟩
  · simp [Player.get_or_404, h]
  · simp [Server.get_or_404, h]
  · simp [Map.get_or_404, h]
  · simp [Mode.get_or_404, h]
  · simp [Mutator.get_or_404, h]
  · simp [Weapon.get_or_404, h]

/-- C6 witness: `"x"` is listed by no entity kind of the empty database and
sample catalog; resolution fails with `NotFound` for all six kinds. -/
theorem c6_get_or_404_notFound_witness :
    Player.get_or_404 emptyDb "x" = .error .notFound ∧
    Server.get_or_404 emptyDb "x" = .error .notFound ∧
    Map.get_or_404 emptyDb "x" = .error .notFound ∧
    Mode.get_or_404 emptyDb sampleCat "x" = .error .notFound ∧
    Mutator.get_or_404 emptyDb sampleCat "x" = .error .notFound ∧
    Weapon.get_or_404 emptyDb sampleCat "x" = .error .notFound := by
  have h := c6_get_or_404_notFound emptyDb sampleCat "x"
  exact ⟨h.1 (by decide), h.2.1 (by decide), h.2.2.1 (by decide),
    h.2.2.2.1 (by decide), h.2.2.2.2.1 (by decide), h.2.2.2.2.2 (by decide)⟩

/-- C10: a successfully constructed Player/Server/Map view has a non-empty
game-id list (`__init__` indexes `game_ids[-1]`/`game_ids[0]`), and a
handle still present in the listing whose referencing games have all been
deleted resolves to the indexing error, not `NotFound`. -/
theorem c10_construction_nonempty (db : DB) (h : String) :
    (∀ p, Player.mk? db h = some p → p.game_ids ≠ []) ∧
    (∀ s, Server.mk? db h = some s → s.game_ids ≠ []) ∧
    (∀ m, Map.mk? db h = some m → m.game_ids ≠ []) ∧
    (h ∈ Player.handle_list db → Player.computeGameIds db h = [] →
      Player.get_or_404 db h = .error .indexErr) ∧
    (h ∈ Server.handle_list db → Server.computeGameIds db h = [] →
      Server.get_or_404 db h = .error .indexErr) := by
  refine ⟨fun p hp => ?_, fun s hs => ?_, fun m hm => ?_,
    fun hmem hnil => ?_, fun hmem hnil => ?_⟩
  · unfold Player.mk? at hp
    by_cases he : (Player.computeGameIds db h).isEmpty
    · simp [he] at hp
    · rw [if_neg he] at hp
      injection hp with hp
      rw [← hp]
      simpa [List.isEmpty_iff] using he
  · unfold Server.mk? at hs
    by_cases he : (Server.computeGameIds db h).isEmpty
    · simp [he] at hs
    · rw [if_neg he] at hs
      injection hs with hs
      rw [← hs]
      simpa [List.isEmpty_iff] using he
  · unfold Map.mk? at hm
    by_cases he : (Map.computeGameIds db h).isEmpty
    · simp [he] at hm
    · rw [if_neg he] at hm
      injection hm with hm
      rw [← hm]
      simpa [List.isEmpty_iff] using he
  · unfold Player.get_or_404
    rw [if_pos hmem]
    unfold Player.mk?
    simp [hnil]
  · unfold Server.get_or_404
    rw [if_pos hmem]
    unfold Server.mk?
    simp [hnil]

/-- C10 witness: in `orphanDb` the handle "a" is still listed for players
and servers, its only game is deleted, and resolution fails with the
indexing error. -/
theorem c10_construction_nonempty_witness :
    Player.get_or_404 orphanDb "a" = .error .indexErr ∧
    Server.get_or_404 orphanDb "a" = .error .indexErr := by
  have h := c10_construction_nonempty orphanDb "a"
  exact ⟨h.2.2.2.1 (by decide) (by decide), h.2.2.2.2 (by decide) (by decide)⟩

/-- C8 (code defect): `Map.paginate` hands the pagination adapter the
race-map counter (`cls.count(True)`) regardless of its `race` argument: at
`c8Db` the non-race listing has 2 maps and the page holds 2 items, yet
`total` is reported as 1, the race-map count. -/
theorem c8_paginate_total_mismatch :
    (Map.map_list c8Db false).length = 2 ∧
    (Map.paginate c8Db 0 5 false).items.length = 2 ∧
    (Map.paginate c8Db 0 5 false).total = 1 ∧
    Map.count c8Db false = 2 ∧ Map.count c8Db true = 1 := by
  decide

theorem mem_last_games {p : PlayerView} {w i : Nat} :
    i ∈ p.last_games w ↔ i ∈ specWindow p w := by
  unfold PlayerView.last_games specWindow
  by_cases hw : w = 0
  · simp [hw]
  · rw [if_neg hw, if_neg hw, List.take_reverse, List.mem_reverse]

theorem windowRecords_eq_spec (db : DB) (p : PlayerView) (w : Nat) :
    p.windowRecords db w = specWindowRecords db p w := by
  unfold PlayerView.windowRecords specWindowRecords
  exact List.filter_congr (fun r _ => by simp [mem_last_games])

/-- C2: for every player view and window size, `fpm` is the summed frags
over the windowed, filtered records divided by `max(1, summed timeAlive)
minutes` — the window being the suffix of the ascending game-id list (all
games at 0, clamped when larger than the list); and the spec's example
"Ace" (timeAlive [60, 120, 0], frags [5, 0, 3]) has `fpm 3 = 8/3`. -/
theorem c2_fpm_formula (db : DB) (p : PlayerView) (w : Nat) :
    PlayerView.fpm db p w =
      ((((specWindowRecords db p w).map (fun r => r.frags)).sum : Int) : ℚ) /
        ((((max 1 (((specWindowRecords db p w).map
          (fun r => r.timealive)).sum) : Int) : ℚ)) / 60) ∧
    PlayerView.fpm aceDb aceView 3 = 8 / 3 := by
  constructor
  · simp only [PlayerView.fpm, windowRecords_eq_spec, sqlSum_getD]
  · with_unfolding_all rfl

theorem windowRecords_sum_nonneg (db : DB) (p : PlayerView) (w : Nat)
    (f : GamePlayer → Int) (hf : ∀ r ∈ db.gameplayers, 0 ≤ f r) :
    0 ≤ ((p.windowRecords db w).map f).sum := by
  refine List.sum_nonneg ?_
  intro x hx
  rcases List.mem_map.mp hx with ⟨r, hr, rfl⟩
  exact hf r (List.mem_of_mem_filter hr)

theorem windowWeaponRecords_sum_nonneg (db : DB) (p : PlayerView) (w : Nat)
    (f : GameWeapon → Int) (hf : ∀ r ∈ db.gameweapons, 0 ≤ f r) :
    0 ≤ ((p.windowWeaponRecords db w).map f).sum := by
  refine List.sum_nonneg ?_
  intro x hx
  rcases List.mem_map.mp hx with ⟨r, hr, rfl⟩
  exact hf r (List.mem_of_mem_filter hr)

/-- C3 as stated is false on the code: with a stored negative frag count
(the schema does not constrain the column and the code never clamps it),
`fpm` is negative. -/
theorem c3_fpm_negative_counterexample :
    PlayerView.fpm negDb negView 0 < 0 := by
  have h : PlayerView.fpm negDb negView 0 = -5 := by with_unfolding_all rfl
  rw [h]
  norm_num

/-- C3 (amended): every ratio divides by a denominator floored away from
zero — `max 1 timeAlive` minutes for dpm/fpm (at least 1/60), `max 1
deaths` and `max 1 frags` (at least 1) for kdr/dfr — so no division by
zero occurs for any player or window, including empty windows whose sums
normalize to 0; and whenever the stored frags, deaths and damage values
are nonnegative, each of dpm, fpm, kdr, dfr is nonnegative. -/
theorem c3_ratio_safety (db : DB) (p : PlayerView) (w : Nat)
    (hf : ∀ r ∈ db.gameplayers, 0 ≤ r.frags)
    (hd : ∀ r ∈ db.gameweapons, 0 ≤ r.damage1 ∧ 0 ≤ r.damage2) :
    (0 < (((max 1 ((sqlSum ((p.windowRecords db w).map
        (fun r => r.timealive))).getD 0) : Int) : ℚ) / 60) ∧
      (1 : ℚ) ≤ ((max 1 ((sqlSum ((p.windowRecords db w).map
        (fun r => r.deaths))).getD 0) : Int) : ℚ) ∧
      (1 : ℚ) ≤ ((max 1 ((sqlSum ((p.windowRecords db w).map
        (fun r => r.frags))).getD 0) : Int) : ℚ)) ∧
    0 ≤ PlayerView.dpm db p w ∧ 0 ≤ PlayerView.fpm db p w ∧
    0 ≤ PlayerView.kdr db p w ∧ 0 ≤ PlayerView.dfr db p w := by
  have htime : (0 : ℚ) < (((max 1 ((sqlSum ((p.windowRecords db w).map
      (fun r => r.timealive))).getD 0) : Int) : ℚ) / 60) := by
    have h1 : (1 : Int) ≤ max 1 ((sqlSum ((p.windowRecords db w).map
        (fun r => r.timealive))).getD 0) := le_max_left _ _
    have : (1 : ℚ) ≤ ((max 1 ((sqlSum ((p.windowRecords db w).map
        (fun r => r.timealive))).getD 0) : Int) : ℚ) := by exact_mod_cast h1
    linarith
  have hden1 : (1 : ℚ) ≤ ((max 1 ((sqlSum ((p.windowRecords db w).map
      (fun r => r.deaths))).getD 0) : Int) : ℚ) := by
    exact_mod_cast le_max_left (1 : Int) _
  have hden2 : (1 : ℚ) ≤ ((max 1 ((sqlSum ((p.windowRecords db w).map
      (fun r => r.frags))).getD 0) : Int) : ℚ) := by
    exact_mod_cast le_max_left (1 : Int) _
  have hfrags : (0 : ℚ) ≤ (((sqlSum ((p.windowRecords db w).map
      (fun r => r.frags))).getD 0 : Int) : ℚ) := by
    rw [sqlSum_getD]
    exact_mod_cast windowRecords_sum_nonneg db p w (fun r => r.frags)
      (fun r hr => hf r hr)
  have hdmg : (0 : ℚ) ≤ ((((sqlSum ((p.windowWeaponRecords db w).map
      (fun r => r.damage1))).getD 0 +
      (sqlSum ((p.windowWeaponRecords db w).map
      (fun r => r.damage2))).getD 0 : Int)) : ℚ) := by
    rw [sqlSum_getD, sqlSum_getD]
    have h1 := windowWeaponRecords_sum_nonneg db p w (fun r => r.damage1)
      (fun r hr => (hd r hr).1)
    have h2 := windowWeaponRecords_sum_nonneg db p w (fun r => r.damage2)
      (fun r hr => (hd r hr).2)
    exact_mod_cast add_nonneg h1 h2
  refine ⟨⟨htime, hden1, hden2⟩, ?_, ?_, ?_, ?_⟩
  · exact div_nonneg hdmg (le_of_lt htime)
  · exact div_nonneg hfrags (le_of_lt htime)
  · exact div_nonneg hfrags (le_trans zero_le_one hden1)
  · exact div_nonneg hdmg (le_trans zero_le_one hden2)

/-- C3 witness: at the concrete "Ace" database all stored values are
nonnegative and every ratio evaluates nonnegative. -/
theorem c3_ratio_safety_witness :
    0 ≤ PlayerView.dpm aceDb aceView 0 ∧ 0 ≤ PlayerView.fpm aceDb aceView 0 ∧
    0 ≤ PlayerView.kdr aceDb aceView 0 ∧ 0 ≤ PlayerView.dfr aceDb aceView 0 :=
  (c3_ratio_safety aceDb aceView 0 (by decide) (by decide)).2

theorem minScoreRecord_eq_none {l : List GamePlayer} :
    minScoreRecord l = none ↔ l = [] := by
  cases l with
  | nil => simp [minScoreRecord]
  | cons r rs =>
    simp only [minScoreRecord]
    constructor
    · intro h
      cases hm : minScoreRecord rs with
      | none =>
        rw [hm] at h
        dsimp only at h
        exact absurd h (by simp)
      | some m =>
        rw [hm] at h
        dsimp only at h
        split at h <;> simp at h
    · intro h
      cases h

theorem minScoreRecord_mem {l : List GamePlayer} :
    ∀ {m : GamePlayer}, minScoreRecord l = some m → m ∈ l := by
  induction l with
  | nil => intro m h; simp [minScoreRecord] at h
  | cons r rs ih =>
    intro m h
    unfold minScoreRecord at h
    cases hm : minScoreRecord rs with
    | none =>
      rw [hm] at h
      dsimp only at h
      injection h with h
      exact h ▸ List.mem_cons_self _ _
    | some m' =>
      rw [hm] at h
      dsimp only at h
      by_cases hc : m'.score < r.score
      · rw [if_pos hc] at h
        injection h with h
        exact List.mem_cons_of_mem _ (h ▸ ih hm)
      · rw [if_neg hc] at h
        injection h with h
        exact h ▸ List.mem_cons_self _ _

theorem minScoreRecord_min {l : List GamePlayer} :
    ∀ {m : GamePlayer}, minScoreRecord l = some m →
      ∀ x ∈ l, m.score ≤ x.score := by
  induction l with
  | nil => intro m h; simp [minScoreRecord] at h
  | cons r rs ih =>
    intro m h
    unfold minScoreRecord at h
    cases hm : minScoreRecord rs with
    | none =>
      rw [hm] at h
      dsimp only at h
      injection h with h
      subst h
      intro x hx
      rcases List.mem_cons.mp hx with rfl | hx
      · exact le_refl _
      · rw [minScoreRecord_eq_none.mp hm] at hx
        simp at hx
    | some m' =>
      rw [hm] at h
      dsimp only at h
      by_cases hc : m'.score < r.score
      · rw [if_pos hc] at h
        injection h with h
        subst h
        intro x hx
        rcases List.mem_cons.mp hx with rfl | hx
        · exact le_of_lt hc
        · exact ih hm x hx
      · rw [if_neg hc] at h
        injection h with h
        subst h
        intro x hx
        rcases List.mem_cons.mp hx with rfl | hx
        · exact le_refl _
        · exact le_trans (not_lt.mp hc) (ih hm x hx)

theorem filterMap_key_nodup {f : String → Option GamePlayer}
    {hs : List String} (hf : ∀ h m, f h = some m → m.handle = h)
    (hnd : hs.Nodup) : ((hs.filterMap f).map (fun r => r.handle)).Nodup := by
  induction hs with
  | nil => simp
  | cons h t ih =>
    rcases List.nodup_cons.mp hnd with ⟨hht, hnt⟩
    cases hfh : f h with
    | none => simpa [List.filterMap_cons, hfh] using ih hnt
    | some m =>
      rw [List.filterMap_cons, hfh, List.map_cons]
      refine List.nodup_cons.mpr ⟨?_, ih hnt⟩
      intro hcon
      rcases List.mem_map.mp hcon with ⟨m', hm', he⟩
      rcases List.mem_filterMap.mp hm' with ⟨h', hh', hfh'⟩
      have h1 : m.handle = h' := he ▸ hf h' m' hfh'
      have h2 : m.handle = h := hf h m hfh
      refine hht ?_
      rw [h2.symm.trans h1]
      exact hh'

theorem raceQualifies_pos {db : DB} {mv : MapView} {e : Bool}
    {r : GamePlayer} (h : raceQualifies db mv e r = true) : 0 < r.score := by
  unfold raceQualifies at h
  simp only [Bool.and_eq_true, decide_eq_true_eq] at h
  exact h.2

theorem raceBest_spec {db : DB} {mv : MapView} {e : Bool} {r : GamePlayer}
    (h : r ∈ mv.raceBest db e) :
    r ∈ mv.raceRows db e ∧
      ∀ q ∈ mv.raceRows db e, q.handle = r.handle → r.score ≤ q.score := by
  rcases List.mem_filterMap.mp h with ⟨hd, hhd, hf⟩
  have hmem := minScoreRecord_mem hf
  have hb : (r.handle == hd) = true := (List.mem_filter.mp hmem).2
  have hhandle : r.handle = hd := beq_iff_eq.mp hb
  refine ⟨(List.mem_filter.mp hmem).1, fun q hq hqh => ?_⟩
  have hqb : (q.handle == hd) = true := beq_iff_eq.mpr (hqh.trans hhandle)
  exact minScoreRecord_min hf q (List.mem_filter.mpr ⟨hq, hqb⟩)

theorem raceBest_handle_nodup (db : DB) (mv : MapView) (e : Bool) :
    ((mv.raceBest db e).map (fun r => r.handle)).Nodup := by
  unfold MapView.raceBest
  refine filterMap_key_nodup (fun h m hm => ?_) (List.nodup_dedup _)
  have hb : (m.handle == h) = true :=
    (List.mem_filter.mp (minScoreRecord_mem hm)).2
  exact beq_iff_eq.mp hb

/-- C1: every row of `topraces(endurance)` arises from a qualifying record
(map's games, race mode, timed, optionally endurance, no freestyle,
positive score) and carries that handle's minimum qualifying score; handles
are pairwise distinct; rows are ordered ascending by score; and at most the
configured maximum number of rows is returned. -/
theorem c1_topraces (db : DB) (mv : MapView) (e : Bool) :
    (∀ row ∈ mv.topraces db e, ∃ r, r ∈ db.gameplayers ∧
      raceQualifies db mv e r = true ∧ row.handle = r.handle ∧
      row.score = r.score ∧ 0 < row.score ∧
      ∀ q ∈ db.gameplayers, raceQualifies db mv e q = true →
        q.handle = r.handle → r.score ≤ q.score) ∧
    ((mv.topraces db e).map (fun row => row.handle)).Nodup ∧
    (mv.topraces db e).Pairwise (fun a b => a.score ≤ b.score) ∧
    (mv.topraces db e).length ≤ db.api_highscore_results := by
  refine ⟨?_, ?_, ?_, ?_⟩
  · intro row hrow
    have h1 : row ∈ sortLe (fun a b => decide (a.score ≤ b.score))
        ((mv.raceBest db e).map (mkRaceRow db)) :=
      List.mem_of_mem_take hrow
    have h2 : row ∈ (mv.raceBest db e).map (mkRaceRow db) :=
      mem_sortLe.mp h1
    rcases List.mem_map.mp h2 with ⟨r, hr, hrr⟩
    rcases raceBest_spec hr with ⟨hrq, hmin⟩
    rcases List.mem_filter.mp hrq with ⟨hrdb, hrqual⟩
    refine ⟨r, hrdb, hrqual, ?_, ?_, ?_, ?_⟩
    · rw [← hrr]; rfl
    · rw [← hrr]; rfl
    · rw [← hrr]
      exact raceQualifies_pos hrqual
    · intro q hq hqqual hqh
      exact hmin q (List.mem_filter.mpr ⟨hq, hqqual⟩) hqh
  · have hmap : ((mv.raceBest db e).map (mkRaceRow db)).map
        (fun row => row.handle) = (mv.raceBest db e).map (fun r => r.handle) := by
      rw [List.map_map]; rfl
    have hnd : (((mv.raceBest db e).map (mkRaceRow db)).map
        (fun row => row.handle)).Nodup := by
      rw [hmap]; exact raceBest_handle_nodup db mv e
    have hperm : (((mv.raceBest db e).map (mkRaceRow db)).map
        (fun row => row.handle)).Perm ((sortLe
          (fun a b => decide (a.score ≤ b.score))
          ((mv.raceBest db e).map (mkRaceRow db))).map (fun row => row.handle)) :=
      (sortLe_perm _ _).map _ |>.symm
    have hnd2 := hperm.nodup hnd
    unfold MapView.topraces
    refine List.Nodup.sublist ?_ hnd2
    exact (List.take_sublist _ _).map _
  · refine List.Pairwise.sublist (List.take_sublist _ _) ?_
    refine sortLe_pairwise ?_ ?_
    · exact pairwise_of_forall (fun a b =>
        ⟨fun hab => of_decide_eq_true hab,
         fun hab => le_of_not_le (of_decide_eq_false hab)⟩) _
    · intro x y z h1 h2
      exact decide_eq_true (le_trans (of_decide_eq_true h1) h2)
  · exact List.length_take_le _ _

/-- C1 witness: over `raceDb` (handle "h1" with scores 20 and 10, "h2" with
score 15 and an incomplete 0), `topraces` keeps distinct handles, ascending
scores, and at most the configured count. -/
theorem c1_topraces_witness :
    ((raceView.topraces raceDb false).map (fun row => row.handle)).Nodup ∧
    (raceView.topraces raceDb false).Pairwise
      (fun a b => a.score ≤ b.score) ∧
    (raceView.topraces raceDb false).length ≤
      raceDb.api_highscore_results := by
  have h := c1_topraces raceDb raceView false
  exact ⟨h.2.1, h.2.2.1, h.2.2.2⟩

theorem mk?_inv {db : DB} {h : String} {p : PlayerView}
    (hp : Player.mk? db h = some p) :
    p = { handle := h, game_ids := Player.computeGameIds db h
          latest := (db.gameplayers.filter (fun r =>
            r.game_id == (Player.computeGameIds db h).getLastD 0 &&
              r.handle == h)).head?
          first := (db.gameplayers.filter (fun r =>
            r.game_id == (Player.computeGameIds db h).headD 0 &&
              r.handle == h)).head? } := by
  unfold Player.mk? at hp
  by_cases he : (Player.computeGameIds db h).isEmpty
  · simp [he] at hp
  · rw [if_neg he] at hp
    injection hp with hp
    exact hp.symm

theorem computeGameIds_nodup {db : DB} (hwf : db.WF) (h : String) :
    (Player.computeGameIds db h).Nodup := by
  rcases hwf with ⟨-, -, hu, -, -⟩
  unfold Player.computeGameIds
  refine List.Nodup.filter _ ?_
  refine List.pairwise_map.mpr ?_
  refine List.Pairwise.imp_of_mem ?_ (hu.filter _)
  intro a b ha hb hab
  have ha2 : a.handle = h := beq_iff_eq.mp (List.mem_filter.mp ha).2
  have hb2 : b.handle = h := beq_iff_eq.mp (List.mem_filter.mp hb).2
  intro hgid
  exact hab hgid (ha2.trans hb2.symm)

theorem computeGameIds_subset {db : DB} {h : String} {i : Nat}
    (hi : i ∈ Player.computeGameIds db h) :
    i ∈ db.games.map (fun g => g.id) := by
  unfold Player.computeGameIds at hi
  have := (List.mem_filter.mp hi).2
  simpa using this

theorem last_games_nodup {p : PlayerView} (hnd : p.game_ids.Nodup)
    (w : Nat) : (p.last_games w).Nodup := by
  unfold PlayerView.last_games
  by_cases hw : w = 0
  · simpa [hw] using hnd
  · rw [if_neg hw]
    exact List.Nodup.sublist (List.take_sublist _ _)
      (List.nodup_reverse.mpr hnd)

theorem mem_of_mem_last_games {p : PlayerView} {w i : Nat}
    (hi : i ∈ p.last_games w) : i ∈ p.game_ids := by
  unfold PlayerView.last_games at hi
  by_cases hw : w = 0
  · rw [if_pos hw] at hi
    exact List.mem_reverse.mp hi
  · rw [if_neg hw] at hi
    exact List.mem_reverse.mp (List.mem_of_mem_take hi)

theorem filter_window_length {games : List Game} {ids : List Nat}
    (hg : (games.map (fun g => g.id)).Nodup) (hi : ids.Nodup)
    (hsub : ∀ i ∈ ids, i ∈ games.map (fun g => g.id)) :
    (games.filter (fun g => decide (g.id ∈ ids))).length = ids.length := by
  have h1 : (games.map (fun g => g.id)).filter (fun i => decide (i ∈ ids))
      = (games.filter (fun g => decide (g.id ∈ ids))).map (fun g => g.id) :=
    List.filter_map (fun g => g.id) games
  have hperm : ((games.map (fun g => g.id)).filter
      (fun i => decide (i ∈ ids))).Perm ids := by
    refine (List.perm_ext_iff_of_nodup (List.Nodup.filter _ hg) hi).mpr ?_
    intro a
    simp only [List.mem_filter, decide_eq_true_eq]
    exact ⟨fun hx => hx.2, fun hx => ⟨hsub a hx, hx⟩⟩
  have h2 := hperm.length_eq
  rw [h1] at h2
  simpa using h2

theorem games_ids_nodup {db : DB} (hwf : db.WF) :
    (db.games.map (fun g => g.id)).Nodup := by
  rcases hwf with ⟨hg, -, -, -, -⟩
  refine List.pairwise_map.mpr ?_
  exact hg.imp (fun hab => Nat.ne_of_lt hab)

theorem strLe_pairwise_sortLe (l : List String) :
    (sortLe (fun a b => decide (a ≤ b)) l).Pairwise (fun a b => a ≤ b) := by
  refine sortLe_pairwise ?_ ?_
  · exact pairwise_of_forall (fun a b =>
      ⟨fun hab => of_decide_eq_true hab,
       fun hab => le_of_not_le (of_decide_eq_false hab)⟩) _
  · intro x y z h1 h2
    exact decide_eq_true (le_trans (of_decide_eq_true h1) h2)

/-- C4: `topmaps` has exactly one entry per distinct map among the windowed
games, is sorted non-increasing by count with ties in ascending name order,
and its counts sum to the number of windowed games. -/
theorem c4_topmaps (db : DB) (h : String) (p : PlayerView) (w : Nat)
    (hwf : db.WF) (hp : Player.mk? db h = some p) :
    ((p.topmaps db w).map (fun x => x.name)).Nodup ∧
    (∀ m : String, (∃ x ∈ p.topmaps db w, x.name = m) ↔
      ∃ g ∈ db.games, g.id ∈ p.last_games w ∧ g.map = m) ∧
    (p.topmaps db w).Pairwise (fun a b =>
      b.games < a.games ∨ (a.games = b.games ∧ a.name < b.name)) ∧
    ((p.topmaps db w).map (fun x => x.games)).sum =
      (p.last_games w).length := by
  have hnames_nodup :
      (sortLe (fun a b => decide (a ≤ b)) (p.windowMaps db w).dedup).Nodup :=
    ((sortLe_perm _ _).symm).nodup (List.nodup_dedup _)
  refine ⟨?_, ?_, ?_, ?_⟩
  · simp only [PlayerView.topmaps]
    have h1 : (((sortLe (fun a b => decide (a ≤ b))
        (p.windowMaps db w).dedup).map (fun m =>
          ({ name := m, games := (p.windowMaps db w).count m } :
            TopMapEntry))).map (fun x => x.name)).Nodup := by
      rw [List.map_map]
      have hcomp : ((fun (x : TopMapEntry) => x.name) ∘ fun m =>
          ({ name := m, games := (p.windowMaps db w).count m } :
            TopMapEntry)) = fun m => m := rfl
      rw [hcomp, List.map_id']
      exact hnames_nodup
    have h2 := (((sortLe_perm (fun a b : TopMapEntry =>
        decide (b.games ≤ a.games)) _).map
        (fun x : TopMapEntry => x.name)).symm).nodup h1
    exact h2
  · intro m
    simp only [PlayerView.topmaps]
    constructor
    · rintro ⟨x, hx, rfl⟩
      have hx2 := mem_sortLe.mp hx
      rcases List.mem_map.mp hx2 with ⟨n, hn, rfl⟩
      have hn1 : n ∈ (p.windowMaps db w).dedup := mem_sortLe.mp hn
      have hn2 : n ∈ p.windowMaps db w := List.mem_dedup.mp hn1
      unfold PlayerView.windowMaps at hn2
      rcases List.mem_map.mp hn2 with ⟨g, hg, rfl⟩
      rcases List.mem_filter.mp hg with ⟨hgdb, hgw⟩
      exact ⟨g, hgdb, decide_eq_true_eq.mp hgw, rfl⟩
    · rintro ⟨g, hgdb, hgw, rfl⟩
      refine ⟨{ name := g.map, games := (p.windowMaps db w).count g.map },
        ?_, rfl⟩
      refine mem_sortLe.mpr ?_
      refine List.mem_map.mpr ⟨g.map, ?_, rfl⟩
      refine mem_sortLe.mpr (List.mem_dedup.mpr ?_)
      unfold PlayerView.windowMaps
      exact List.mem_map.mpr ⟨g,
        List.mem_filter.mpr ⟨hgdb, decide_eq_true hgw⟩, rfl⟩
  · simp only [PlayerView.topmaps]
    have hstrict : (sortLe (fun a b => decide (a ≤ b))
        (p.windowMaps db w).dedup).Pairwise (fun a b => a < b) :=
      ((strLe_pairwise_sortLe _).and hnames_nodup).imp
        (fun hab => lt_of_le_of_ne hab.1 hab.2)
    have hentries : ((sortLe (fun a b => decide (a ≤ b))
        (p.windowMaps db w).dedup).map (fun m =>
          ({ name := m, games := (p.windowMaps db w).count m } :
            TopMapEntry))).Pairwise (fun x y => x.name < y.name) :=
      List.pairwise_map.mpr hstrict
    refine sortLe_pairwise ?_ ?_
    · refine hentries.imp ?_
      intro a b hab
      constructor
      · intro hd
        rcases lt_or_eq_of_le (of_decide_eq_true hd) with hlt | heq
        · exact Or.inl hlt
        · exact Or.inr ⟨heq.symm, hab⟩
      · intro hd
        exact Or.inl (lt_of_not_le (of_decide_eq_false hd))
    · intro x y z h1 h2
      refine decide_eq_true ?_
      have hyx : y.games ≤ x.games := of_decide_eq_true h1
      rcases h2 with hlt | ⟨heq, -⟩
      · exact le_trans (le_of_lt hlt) hyx
      · exact le_trans (le_of_eq heq.symm) hyx
  · simp only [PlayerView.topmaps]
    have hs1 : ((sortLe (fun a b : TopMapEntry => decide (b.games ≤ a.games))
        ((sortLe (fun a b => decide (a ≤ b)) (p.windowMaps db w).dedup).map
          (fun m => ({ name := m, games := (p.windowMaps db w).count m } :
            TopMapEntry)))).map (fun x => x.games)).sum =
        (((sortLe (fun a b => decide (a ≤ b)) (p.windowMaps db w).dedup).map
          (fun m => ({ name := m, games := (p.windowMaps db w).count m } :
            TopMapEntry))).map (fun x => x.games)).sum :=
      ((sortLe_perm _ _).map (fun x : TopMapEntry => x.games)).sum_eq
    rw [hs1, List.map_map]
    have hs2 : ((sortLe (fun a b => decide (a ≤ b))
        (p.windowMaps db w).dedup).map
          (fun m => (p.windowMaps db w).count m)).sum =
        ((p.windowMaps db w).dedup.map
          (fun m => (p.windowMaps db w).count m)).sum :=
      ((sortLe_perm _ _).map _).sum_eq
    have hs3 : ((p.windowMaps db w).dedup.map
        (fun m => (p.windowMaps db w).count m)).sum =
        (p.windowMaps db w).length :=
      List.sum_map_count_dedup_eq_length _
    have hpg : p.game_ids = Player.computeGameIds db h := by
      rw [mk?_inv hp]
    have hgidnd : p.game_ids.Nodup := by
      rw [hpg]; exact computeGameIds_nodup hwf h
    have hlen : (p.windowMaps db w).length = (p.last_games w).length := by
      unfold PlayerView.windowMaps
      rw [List.length_map]
      refine filter_window_length (games_ids_nodup hwf)
        (last_games_nodup hgidnd w) ?_
      intro i hi
      have : i ∈ p.game_ids := mem_of_mem_last_games hi
      rw [hpg] at this
      exact computeGameIds_subset this
    calc ((sortLe (fun a b => decide (a ≤ b))
          (p.windowMaps db w).dedup).map (fun m =>
            ({ name := m, games := (p.windowMaps db w).count m } :
              TopMapEntry).games)).sum
        = ((sortLe (fun a b => decide (a ≤ b))
          (p.windowMaps db w).dedup).map
            (fun m => (p.windowMaps db w).count m)).sum := rfl
      _ = (p.last_games w).length := by rw [hs2, hs3, hlen]

/-- C4 witness: the Ace database (3 games on 2 maps) has entry names
without duplicates and counts summing to the 3 windowed games. -/
theorem c4_topmaps_witness :
    ((aceView.topmaps aceDb 0).map (fun x => x.games)).sum =
      (aceView.last_games 0).length ∧
    ((aceView.topmaps aceDb 0).map (fun x => x.name)).Nodup := by
  have h := c4_topmaps aceDb "Ace" aceView 0 (by unfold DB.WF; decide)
    (by decide)
  exact ⟨h.2.2.2, h.1⟩

theorem unique_by_key {β : Type _} {l : List β} {f : β → Nat}
    (hl : l.Pairwise (fun a b => f a ≠ f b)) :
    ∀ {a b : β}, a ∈ l → b ∈ l → f a = f b → a = b := by
  induction l with
  | nil => intro a b ha; simp at ha
  | cons x t ih =>
    intro a b ha hb hf
    rcases List.pairwise_cons.mp hl with ⟨hx, ht⟩
    rcases List.mem_cons.mp ha with rfl | ha2
    · rcases List.mem_cons.mp hb with rfl | hb2
      · rfl
      · exact absurd hf (hx b hb2)
    · rcases List.mem_cons.mp hb with rfl | hb2
      · exact absurd hf.symm (hx a ha2)
      · exact ih ht ha2 hb2 hf

theorem head?_filter_exists {α : Type _} (q : α → Bool) {l : List α} {x : α}
    (hx : x ∈ l) (hqx : q x = true) :
    ∃ r, (l.filter q).head? = some r ∧ r ∈ l ∧ q r = true := by
  have hmem : x ∈ l.filter q := List.mem_filter.mpr ⟨hx, hqx⟩
  cases hf : l.filter q with
  | nil => rw [hf] at hmem; simp at hmem
  | cons r rs =>
    have hr : r ∈ l.filter q := by rw [hf]; exact List.mem_cons_self _ _
    exact ⟨r, rfl, List.mem_of_mem_filter hr,
      (List.mem_filter.mp hr).2⟩

theorem le_getLast_of_sorted {l : List Nat}
    (hl : l.Pairwise (fun a b => a < b)) :
    ∀ (h : l ≠ []) (x : Nat), x ∈ l → x ≤ l.getLast h := by
  induction l with
  | nil => intro h; exact absurd rfl h
  | cons a t ih =>
    intro h x hx
    rcases List.pairwise_cons.mp hl with ⟨ha, ht⟩
    cases t with
    | nil =>
      rcases List.mem_cons.mp hx with rfl | hx2
      · simp [List.getLast]
      · simp at hx2
    | cons b t2 =>
      rw [List.getLast_cons (by simp)]
      rcases List.mem_cons.mp hx with rfl | hx2
      · exact le_of_lt (ha _ (List.getLast_mem (by simp)))
      · exact ih ht (by simp) x hx2

theorem head_le_of_sorted {l : List Nat}
    (hl : l.Pairwise (fun a b => a < b)) :
    ∀ (h : l ≠ []) (x : Nat), x ∈ l → l.head h ≤ x := by
  cases l with
  | nil => intro h; exact absurd rfl h
  | cons a t =>
    intro h x hx
    rcases List.pairwise_cons.mp hl with ⟨ha, -⟩
    rcases List.mem_cons.mp hx with rfl | hx2
    · exact le_refl _
    · exact le_of_lt (ha x hx2)

theorem getLastD_eq_getLast_of_ne {l : List Nat} (h : l ≠ []) :
    l.getLastD 0 = l.getLast h := by
  rw [List.getLastD_eq_getLast?, List.getLast?_eq_getLast l h]
  rfl

theorem headD_eq_head_of_ne {l : List Nat} (h : l ≠ []) :
    l.headD 0 = l.head h := by
  rw [List.headD_eq_head?, List.head?_eq_head h]
  rfl

theorem computeGameIds_sorted {db : DB} (hwf : db.WF) (h : String) :
    (Player.computeGameIds db h).Pairwise (fun a b => a < b) := by
  rcases hwf with ⟨-, hs, hu, -, -⟩
  unfold Player.computeGameIds
  refine List.Pairwise.filter _ ?_
  refine List.pairwise_map.mpr ?_
  refine List.Pairwise.imp_of_mem ?_ ((hs.and hu).filter _)
  intro a b ha hb hab
  have ha2 : a.handle = h := beq_iff_eq.mp (List.mem_filter.mp ha).2
  have hb2 : b.handle = h := beq_iff_eq.mp (List.mem_filter.mp hb).2
  rcases lt_or_eq_of_le hab.1 with hlt | heq
  · exact hlt
  · exact absurd (ha2.trans hb2.symm) (hab.2 heq)

theorem serverGameIds_sorted {db : DB} (hwf : db.WF) (h : String) :
    (Server.computeGameIds db h).Pairwise (fun a b => a < b) := by
  rcases hwf with ⟨-, -, -, hs, hne⟩
  unfold Server.computeGameIds
  refine List.Pairwise.filter _ ?_
  refine List.pairwise_map.mpr ?_
  refine ((hs.and hne).filter _).imp ?_
  exact fun hab => lt_of_le_of_ne hab.1 hab.2

theorem filtered_games_sorted {db : DB} (hwf : db.WF) (q : Game → Bool) :
    ((db.games.filter q).map (fun g => g.id)).Pairwise (fun a b => a < b) := by
  rcases hwf with ⟨hg, -, -, -, -⟩
  exact List.pairwise_map.mpr (hg.filter q)

theorem filtered_games_exist {db : DB} {q : Game → Bool} {i : Nat}
    (hi : i ∈ (db.games.filter q).map (fun g => g.id)) :
    ∃ g ∈ db.games, g.id = i := by
  rcases List.mem_map.mp hi with ⟨g, hg, rfl⟩
  exact ⟨g, List.mem_of_mem_filter hg, rfl⟩

theorem computeGameIds_exists_row {db : DB} {h : String} {i : Nat}
    (hi : i ∈ Player.computeGameIds db h) :
    ∃ r ∈ db.gameplayers, r.handle = h ∧ r.game_id = i := by
  unfold Player.computeGameIds at hi
  have h1 := List.mem_of_mem_filter hi
  rcases List.mem_map.mp h1 with ⟨r, hr, rfl⟩
  exact ⟨r, List.mem_of_mem_filter hr,
    beq_iff_eq.mp (List.mem_filter.mp hr).2, rfl⟩

theorem serverGameIds_exists_row {db : DB} {h : String} {i : Nat}
    (hi : i ∈ Server.computeGameIds db h) :
    ∃ r ∈ db.gameservers, r.handle = h ∧ r.game_id = i := by
  unfold Server.computeGameIds at hi
  have h1 := List.mem_of_mem_filter hi
  rcases List.mem_map.mp h1 with ⟨r, hr, rfl⟩
  exact ⟨r, List.mem_of_mem_filter hr,
    beq_iff_eq.mp (List.mem_filter.mp hr).2, rfl⟩

theorem mapGameIds_exists_game {db : DB} {n : String} {i : Nat}
    (hi : i ∈ Map.computeGameIds db n) :
    ∃ g ∈ db.games, g.map = n ∧ g.id = i := by
  unfold Map.computeGameIds at hi
  rcases List.mem_map.mp hi with ⟨g, hg, rfl⟩
  exact ⟨g, List.mem_of_mem_filter hg,
    beq_iff_eq.mp (List.mem_filter.mp hg).2, rfl⟩

theorem server_mk?_inv {db : DB} {h : String} {s : ServerView}
    (hs : Server.mk? db h = some s) :
    s = { handle := h, game_ids := Server.computeGameIds db h
          latest := (db.gameservers.filter (fun r =>
            r.game_id == (Server.computeGameIds db h).getLastD 0)).head?
          first := (db.gameservers.filter (fun r =>
            r.game_id == (Server.computeGameIds db h).headD 0)).head? } := by
  unfold Server.mk? at hs
  by_cases he : (Server.computeGameIds db h).isEmpty
  · simp [he] at hs
  · rw [if_neg he] at hs
    injection hs with hs
    exact hs.symm

theorem map_mk?_inv {db : DB} {n : String} {m : MapView}
    (hm : Map.mk? db n = some m) :
    m = { name := n, game_ids := Map.computeGameIds db n
          latest := (db.games.filter (fun g =>
            g.id == (Map.computeGameIds db n).getLastD 0)).head?
          first := (db.games.filter (fun g =>
            g.id == (Map.computeGameIds db n).headD 0)).head?
          gametime := sqlSum ((db.games.filter (fun g => g.map == n)).map
            (fun g => g.timeplayed))
          playertime := sqlSum ((db.gameplayers.filter (fun r =>
            decide (r.game_id ∈ Map.computeGameIds db n))).map
            (fun r => r.timeactive)) } := by
  unfold Map.mk? at hm
  by_cases he : (Map.computeGameIds db n).isEmpty
  · simp [he] at hm
  · rw [if_neg he] at hm
    injection hm with hm
    exact hm.symm

/-- C5: for every successfully constructed entity view, `game_ids` is
strictly ascending and contains only ids of existing games; for the
Player/Server/Map views, `first`/`latest` hold the entity's record at the
smallest resp. largest game id of that list. -/
theorem c5_views (db : DB) (n : String) (hwf : db.WF) :
    (∀ p, Player.mk? db n = some p →
      p.game_ids.Pairwise (fun a b => a < b) ∧
      (∀ i ∈ p.game_ids, ∃ g ∈ db.games, g.id = i) ∧
      (∃ r, p.latest = some r ∧ r.handle = p.handle ∧
        r.game_id ∈ p.game_ids ∧ ∀ i ∈ p.game_ids, i ≤ r.game_id) ∧
      (∃ r, p.first = some r ∧ r.handle = p.handle ∧
        r.game_id ∈ p.game_ids ∧ ∀ i ∈ p.game_ids, r.game_id ≤ i)) ∧
    (∀ s, Server.mk? db n = some s →
      s.game_ids.Pairwise (fun a b => a < b) ∧
      (∀ i ∈ s.game_ids, ∃ g ∈ db.games, g.id = i) ∧
      (∃ r, s.latest = some r ∧ r.handle = s.handle ∧
        r.game_id ∈ s.game_ids ∧ ∀ i ∈ s.game_ids, i ≤ r.game_id) ∧
      (∃ r, s.first = some r ∧ r.handle = s.handle ∧
        r.game_id ∈ s.game_ids ∧ ∀ i ∈ s.game_ids, r.game_id ≤ i)) ∧
    (∀ m, Map.mk? db n = some m →
      m.game_ids.Pairwise (fun a b => a < b) ∧
      (∀ i ∈ m.game_ids, ∃ g ∈ db.games, g.id = i) ∧
      (∃ g, m.latest = some g ∧ g.map = m.name ∧
        g.id ∈ m.game_ids ∧ ∀ i ∈ m.game_ids, i ≤ g.id) ∧
      (∃ g, m.first = some g ∧ g.map = m.name ∧
        g.id ∈ m.game_ids ∧ ∀ i ∈ m.game_ids, g.id ≤ i)) ∧
    ((Mode.mk db n).game_ids.Pairwise (fun a b => a < b) ∧
      ∀ i ∈ (Mode.mk db n).game_ids, ∃ g ∈ db.games, g.id = i) ∧
    ((Mutator.mk db n).game_ids.Pairwise (fun a b => a < b) ∧
      ∀ i ∈ (Mutator.mk db n).game_ids, ∃ g ∈ db.games, g.id = i) := by
  refine ⟨?_, ?_, ?_, ?_, ?_⟩
  · intro p hp
    have hne : Player.computeGameIds db n ≠ [] := by
      intro hnil
      unfold Player.mk? at hp
      rw [hnil] at hp
      simp at hp
    have hinv := mk?_inv hp
    subst hinv
    have hsorted := computeGameIds_sorted hwf n
    refine ⟨hsorted, ?_, ?_, ?_⟩
    · intro i hi
      rcases List.mem_map.mp (computeGameIds_subset hi) with ⟨g, hg, hgi⟩
      exact ⟨g, hg, hgi⟩
    · rcases computeGameIds_exists_row
        (List.getLast_mem hne (l := Player.computeGameIds db n)) with
        ⟨r', hr', hrh, hri⟩
      have hpred : (r'.game_id == (Player.computeGameIds db n).getLastD 0 &&
          r'.handle == n) = true := by
        rw [getLastD_eq_getLast_of_ne hne]
        simp [hri, hrh]
      rcases head?_filter_exists (fun r =>
          r.game_id == (Player.computeGameIds db n).getLastD 0 &&
            r.handle == n) hr' hpred with ⟨r0, hhead, hr0mem, hr0pred⟩
      rw [getLastD_eq_getLast_of_ne hne] at hr0pred
      simp only [Bool.and_eq_true, beq_iff_eq] at hr0pred
      refine ⟨r0, hhead, hr0pred.2, ?_, ?_⟩
      · rw [hr0pred.1]
        exact List.getLast_mem hne
      · intro i hi
        rw [hr0pred.1]
        exact le_getLast_of_sorted hsorted hne i hi
    · have hhm : (Player.computeGameIds db n).head hne ∈
          Player.computeGameIds db n := List.head_mem hne
      rcases computeGameIds_exists_row hhm with ⟨r', hr', hrh, hri⟩
      have hpred : (r'.game_id == (Player.computeGameIds db n).headD 0 &&
          r'.handle == n) = true := by
        rw [headD_eq_head_of_ne hne]
        simp [hri, hrh]
      rcases head?_filter_exists (fun r =>
          r.game_id == (Player.computeGameIds db n).headD 0 &&
            r.handle == n) hr' hpred with ⟨r0, hhead, hr0mem, hr0pred⟩
      rw [headD_eq_head_of_ne hne] at hr0pred
      simp only [Bool.and_eq_true, beq_iff_eq] at hr0pred
      refine ⟨r0, hhead, hr0pred.2, ?_, ?_⟩
      · rw [hr0pred.1]
        exact List.head_mem hne
      · intro i hi
        rw [hr0pred.1]
        exact head_le_of_sorted hsorted hne i hi
  · intro s hs
    have hne : Server.computeGameIds db n ≠ [] := by
      intro hnil
      unfold Server.mk? at hs
      rw [hnil] at hs
      simp at hs
    have hinv := server_mk?_inv hs
    subst hinv
    have hsorted := serverGameIds_sorted hwf n
    have huniq : db.gameservers.Pairwise
        (fun a b => a.game_id ≠ b.game_id) := hwf.2.2.2.2
    refine ⟨hsorted, ?_, ?_, ?_⟩
    · intro i hi
      rcases serverGameIds_exists_row hi with ⟨r, hr, -, hri⟩
      unfold Server.computeGameIds at hi
      have := (List.mem_filter.mp hi).2
      rcases List.mem_map.mp (by simpa using this) with ⟨g, hg, hgi⟩
      exact ⟨g, hg, hgi⟩
    · rcases serverGameIds_exists_row
        (List.getLast_mem hne (l := Server.computeGameIds db n)) with
        ⟨r', hr', hrh, hri⟩
      have hpred : (r'.game_id ==
          (Server.computeGameIds db n).getLastD 0) = true := by
        rw [getLastD_eq_getLast_of_ne hne]
        simp [hri]
      rcases head?_filter_exists (fun r =>
          r.game_id == (Server.computeGameIds db n).getLastD 0) hr' hpred
        with ⟨r0, hhead, hr0mem, hr0pred⟩
      rw [getLastD_eq_getLast_of_ne hne] at hr0pred
      have hr0id : r0.game_id = (Server.computeGameIds db n).getLast hne :=
        beq_iff_eq.mp hr0pred
      have hr0eq : r0 = r' := unique_by_key huniq hr0mem hr'
        (hr0id.trans hri.symm)
      refine ⟨r0, hhead, by rw [hr0eq]; exact hrh, ?_, ?_⟩
      · rw [hr0id]
        exact List.getLast_mem hne
      · intro i hi
        rw [hr0id]
        exact le_getLast_of_sorted hsorted hne i hi
    · have hhm : (Server.computeGameIds db n).head hne ∈
          Server.computeGameIds db n := List.head_mem hne
      rcases serverGameIds_exists_row hhm with ⟨r', hr', hrh, hri⟩
      have hpred : (r'.game_id ==
          (Server.computeGameIds db n).headD 0) = true := by
        rw [headD_eq_head_of_ne hne]
        simp [hri]
      rcases head?_filter_exists (fun r =>
          r.game_id == (Server.computeGameIds db n).headD 0) hr' hpred
        with ⟨r0, hhead, hr0mem, hr0pred⟩
      rw [headD_eq_head_of_ne hne] at hr0pred
      have hr0id : r0.game_id = (Server.computeGameIds db n).head hne :=
        beq_iff_eq.mp hr0pred
      have hr0eq : r0 = r' := unique_by_key huniq hr0mem hr'
        (hr0id.trans hri.symm)
      refine ⟨r0, hhead, by rw [hr0eq]; exact hrh, ?_, ?_⟩
      · rw [hr0id]
        exact List.head_mem hne
      · intro i hi
        rw [hr0id]
        exact head_le_of_sorted hsorted hne i hi
  · intro m hm
    have hne : Map.computeGameIds db n ≠ [] := by
      intro hnil
      unfold Map.mk? at hm
      rw [hnil] at hm
      simp at hm
    have hinv := map_mk?_inv hm
    subst hinv
    have hsorted : (Map.computeGameIds db n).Pairwise (fun a b => a < b) :=
      filtered_games_sorted hwf _
    have huniq : db.games.Pairwise (fun a b => a.id ≠ b.id) :=
      hwf.1.imp (fun hab => Nat.ne_of_lt hab)
    refine ⟨hsorted, ?_, ?_, ?_⟩
    · intro i hi
      rcases mapGameIds_exists_game hi with ⟨g, hg, -, hgi⟩
      exact ⟨g, hg, hgi⟩
    · rcases mapGameIds_exists_game
        (List.getLast_mem hne (l := Map.computeGameIds db n)) with
        ⟨g', hg', hgm, hgi⟩
      have hpred : (g'.id == (Map.computeGameIds db n).getLastD 0) = true := by
        rw [getLastD_eq_getLast_of_ne hne]
        simp [hgi]
      rcases head?_filter_exists (fun g =>
          g.id == (Map.computeGameIds db n).getLastD 0) hg' hpred
        with ⟨g0, hhead, hg0mem, hg0pred⟩
      rw [getLastD_eq_getLast_of_ne hne] at hg0pred
      have hg0id : g0.id = (Map.computeGameIds db n).getLast hne :=
        beq_iff_eq.mp hg0pred
      have hg0eq : g0 = g' := unique_by_key huniq hg0mem hg'
        (hg0id.trans hgi.symm)
      refine ⟨g0, hhead, by rw [hg0eq]; exact hgm, ?_, ?_⟩
      · rw [hg0id]
        exact List.getLast_mem hne
      · intro i hi
        rw [hg0id]
        exact le_getLast_of_sorted hsorted hne i hi
    · have hhm : (Map.computeGameIds db n).head hne ∈
          Map.computeGameIds db n := List.head_mem hne
      rcases mapGameIds_exists_game hhm with ⟨g', hg', hgm, hgi⟩
      have hpred : (g'.id == (Map.computeGameIds db n).headD 0) = true := by
        rw [headD_eq_head_of_ne hne]
        simp [hgi]
      rcases head?_filter_exists (fun g =>
          g.id == (Map.computeGameIds db n).headD 0) hg' hpred
        with ⟨g0, hhead, hg0mem, hg0pred⟩
      rw [headD_eq_head_of_ne hne] at hg0pred
      have hg0id : g0.id = (Map.computeGameIds db n).head hne :=
        beq_iff_eq.mp hg0pred
      have hg0eq : g0 = g' := unique_by_key huniq hg0mem hg'
        (hg0id.trans hgi.symm)
      refine ⟨g0, hhead, by rw [hg0eq]; exact hgm, ?_, ?_⟩
      · rw [hg0id]
        exact List.head_mem hne
      · intro i hi
        rw [hg0id]
        exact head_le_of_sorted hsorted hne i hi
  · constructor
    · exact filtered_games_sorted hwf _
    · intro i hi
      exact filtered_games_exist hi
  · unfold Mutator.mk
    by_cases hc : n.contains '-'
    · rw [if_pos hc]
      exact ⟨filtered_games_sorted hwf _, fun i hi => filtered_games_exist hi⟩
    · rw [if_neg hc]
      exact ⟨filtered_games_sorted hwf _, fun i hi => filtered_games_exist hi⟩

/-- C5 witness: the constructed "Ace" view has ascending existing game ids
and its `latest` record sits at the largest game id. -/
theorem c5_views_witness :
    aceView.game_ids.Pairwise (fun a b => a < b) ∧
    (∃ r, aceView.latest = some r ∧ r.handle = aceView.handle ∧
      r.game_id ∈ aceView.game_ids ∧
      ∀ i ∈ aceView.game_ids, i ≤ r.game_id) := by
  have h := (c5_views aceDb "Ace" (by unfold DB.WF; decide)).1 aceView
    (by decide)
  exact ⟨h.1, h.2.2.1⟩

theorem sortLe_desc_pairwise {α : Type _} (k : α → Nat) (l : List α) :
    (sortLe (fun a b => decide (k b ≤ k a)) l).Pairwise
      (fun a b => k b ≤ k a) := by
  refine sortLe_pairwise ?_ ?_
  · exact pairwise_of_forall (fun a b =>
      ⟨fun hab => of_decide_eq_true hab,
       fun hab => le_of_not_le (of_decide_eq_false hab)⟩) _
  · intro x y z h1 h2
    exact decide_eq_true (le_trans h2 (of_decide_eq_true h1))

theorem compound_data (m mu : String) :
    (m ++ "-" ++ mu).data = m.data ++ '-' :: mu.data := by
  rw [String.data_append, String.data_append]
  simp

theorem append_dash_inj {l1 : List Char} :
    ∀ {l2 x y : List Char}, '-' ∉ l1 → '-' ∉ l2 →
      l1 ++ '-' :: x = l2 ++ '-' :: y → l1 = l2 ∧ x = y := by
  induction l1 with
  | nil =>
    intro l2 x y h1 h2 he
    cases l2 with
    | nil => simpa using he
    | cons b t2 =>
      injection he with hb ht
      exact absurd (hb ▸ List.mem_cons_self b t2) h2
  | cons a t1 ih =>
    intro l2 x y h1 h2 he
    cases l2 with
    | nil =>
      injection he with hb ht
      exact absurd (hb ▸ List.mem_cons_self a t1) h1
    | cons b t2 =>
      injection he with hb ht
      have h1' : '-' ∉ t1 := fun hm => h1 (List.mem_cons_of_mem _ hm)
      have h2' : '-' ∉ t2 := fun hm => h2 (List.mem_cons_of_mem _ hm)
      rcases ih h1' h2' ht with ⟨hteq, hxy⟩
      exact ⟨by rw [hb, hteq], hxy⟩

/-- C7 as stated fails for `Map.map_list`: unlike the handle listings it has
no empty-string filter, so a stored empty map name is listed. -/
theorem c7_maplist_empty_counterexample :
    "" ∈ Map.map_list emptyMapDb false := by decide

/-- C7 (amended): the handle listings exclude the empty string by
construction; the map listing contains no empty string provided no stored
game has an empty map name; catalog-backed listings are clean under the
catalog's well-formedness; all listings are duplicate-free; and the
database-backed listings are ordered by the most recent game referencing
each name, descending. -/
theorem c7_listings (db : DB) (cat : Ruleset) (race : Bool)
    (hmaps : ∀ g ∈ db.games, g.map ≠ "") (hcat : cat.WF) :
    ("" ∉ Player.handle_list db ∧ (Player.handle_list db).Nodup ∧
      (Player.handle_list db).Pairwise
        (fun a b => Player.lastRef db b ≤ Player.lastRef db a)) ∧
    ("" ∉ Server.handle_list db ∧ (Server.handle_list db).Nodup ∧
      (Server.handle_list db).Pairwise
        (fun a b => Server.lastRef db b ≤ Server.lastRef db a)) ∧
    ("" ∉ Map.map_list db race ∧ (Map.map_list db race).Nodup ∧
      (Map.map_list db race).Pairwise
        (fun a b => Map.lastRef db race b ≤ Map.lastRef db race a)) ∧
    ("" ∉ Mode.mode_list cat ∧ (Mode.mode_list cat).Nodup) ∧
    ("" ∉ Mutator.mutator_list cat ∧ (Mutator.mutator_list cat).Nodup) ∧
    ("" ∉ Weapon.weapon_list cat ∧ (Weapon.weapon_list cat).Nodup) := by
  obtain ⟨hmnd, hmpr, hbnd, hbpr, hgnd, hwnd, hwpr⟩ := hcat
  refine ⟨⟨?_, ?_, ?_⟩, ⟨?_, ?_, ?_⟩, ⟨?_, ?_, ?_⟩, ⟨?_, ?_⟩, ⟨?_, ?_⟩,
    ⟨?_, ?_⟩⟩
  · intro hmem
    have h1 := List.mem_dedup.mp (mem_sortLe.mp hmem)
    have h2 := (List.mem_filter.mp h1).2
    simp at h2
  · exact ((sortLe_perm _ _).symm).nodup (List.nodup_dedup _)
  · exact sortLe_desc_pairwise (Player.lastRef db) _
  · intro hmem
    have h1 := List.mem_dedup.mp (mem_sortLe.mp hmem)
    have h2 := (List.mem_filter.mp h1).2
    simp at h2
  · exact ((sortLe_perm _ _).symm).nodup (List.nodup_dedup _)
  · exact sortLe_desc_pairwise (Server.lastRef db) _
  · intro hmem
    have h1 := List.mem_dedup.mp (mem_sortLe.mp hmem)
    rcases List.mem_map.mp h1 with ⟨g, hg, hgm⟩
    have hgdb : g ∈ db.games := by
      by_cases hr : race = true
      · rw [if_pos hr] at hg
        unfold Map.raceGames at hg
        exact List.mem_of_mem_filter hg
      · rw [if_neg hr] at hg
        exact hg
    exact hmaps g hgdb hgm
  · exact ((sortLe_perm _ _).symm).nodup (List.nodup_dedup _)
  · exact sortLe_desc_pairwise (Map.lastRef db race) _
  · intro hmem
    have h1 := List.mem_of_mem_filter hmem
    exact (hmpr "" h1).1 rfl
  · exact List.Nodup.filter _ hmnd
  · intro hmem
    unfold Mutator.mutator_list at hmem
    rcases List.mem_append.mp hmem with hb | hf
    · exact (hbpr "" hb).1 rfl
    · rcases List.mem_flatMap.mp hf with ⟨m, hm, hin⟩
      rcases List.mem_map.mp hin with ⟨mu, hmu, heq⟩
      have : ("" : String).data = m.data ++ '-' :: mu.data := by
        rw [← heq, compound_data]
      simp at this
  · unfold Mutator.mutator_list
    refine List.Nodup.append hbnd ?_ ?_
    · refine List.nodup_flatMap.mpr ⟨?_, ?_⟩
      · intro m hm
        refine List.Nodup.map_on ?_ (hgnd m hm)
        intro x hx y hy hxy
        have hdata : m.data ++ '-' :: x.data = m.data ++ '-' :: y.data := by
          have := congrArg String.data hxy
          rwa [compound_data, compound_data] at this
        have h1 := List.append_cancel_left hdata
        injection h1 with hh h2
        exact String.ext h2
      · refine List.Pairwise.imp_of_mem ?_ hmnd
        intro m1 m2 hm1 hm2 hne
        intro a ha1 ha2
        rcases List.mem_map.mp ha1 with ⟨x, hx, hax⟩
        rcases List.mem_map.mp ha2 with ⟨y, hy, hay⟩
        have hdata : m1.data ++ '-' :: x.data = m2.data ++ '-' :: y.data := by
          have := congrArg String.data (hax.trans hay.symm)
          rwa [compound_data, compound_data] at this
        have := append_dash_inj (hmpr m1 hm1).2 (hmpr m2 hm2).2 hdata
        exact hne (String.ext this.1)
    · intro a hb hf
      rcases List.mem_flatMap.mp hf with ⟨m, hm, hin⟩
      rcases List.mem_map.mp hin with ⟨mu, hmu, heq⟩
      have hdash : '-' ∈ a.data := by
        rw [← heq, compound_data]
        exact List.mem_append_right _ (List.mem_cons_self _ _)
      exact (hbpr a hb).2 hdash
  · intro hmem
    exact (hwpr "" hmem) rfl
  · exact hwnd

/-- C7 witness: concrete listings over `orphanDb` (one player and server
handle "a") and the sample catalog. -/
theorem c7_listings_witness :
    "" ∉ Player.handle_list orphanDb ∧
    (Player.handle_list orphanDb).Nodup ∧
    "" ∉ Mutator.mutator_list sampleCat ∧
    (Mutator.mutator_list sampleCat).Nodup := by
  have h := c7_listings orphanDb sampleCat false (by decide)
    (by unfold Ruleset.WF; decide)
  exact ⟨h.1.1, h.1.2.1, h.2.2.2.2.1.1, h.2.2.2.2.1.2⟩
